import Mathlib

set_option autoImplicit false
set_option maxRecDepth 4000

deriving instance DecidableEq for Except

/-!
# Verification of the call-analytics / case-check engine

Shallow embedding of the repository's Python sources:

* `src/summariser/extract_metrics/app.py` — timed-text (VTT) parsing,
  speaker attribution;
* `src/summariser/case_check/app.py` — triage aggregation, evidence-span
  resolution, the case-check Lambda handler;
* `src/summariser/initiate_case_check/app.py` — idempotent initiation.

Python strings are modelled as `List Char` (a Python `str` is a sequence of
code points); Python `float` results are modelled exactly in `ℚ` (every
numeric claim under test involves values that are exactly representable, so
the rational model and IEEE doubles agree on them); Python functions that can
raise are modelled in `Except String`.
-/

/-! ## Python string primitives (modelled over `List Char`) -/

/-- Whitespace test used by Python's `str.strip` / `str.split()` and by the
regex class `\s` (restricted to the whitespace characters that occur in the
transcripts: space, tab, CR, LF). -/
def isPyWhite (c : Char) : Bool := c.isWhitespace

/-- Python `str.strip()`: drop whitespace from both ends. -/
def pyStrip (l : List Char) : List Char :=
  ((l.dropWhile isPyWhite).reverse.dropWhile isPyWhite).reverse

/-- Python `str.split(sep)` for a one-character separator: split on every
occurrence, keeping empty chunks (`"".split(c) = [""]`). -/
def splitOnChar (sep : Char) : List Char → List (List Char)
  | [] => [[]]
  | c :: rest =>
    match splitOnChar sep rest with
    | [] => [[c]]
    | h :: t => if c = sep then [] :: h :: t else (c :: h) :: t

/-- Python `str.replace(a, b)` for one-character arguments. -/
def pyReplaceChar (a b : Char) (l : List Char) : List Char :=
  l.map fun c => if c = a then b else c

/-- Python `str.replace('\r\n', '\n')`: scan left to right, replacing each
(non-overlapping) `"\r\n"` occurrence and copying every other character. -/
def replaceCRLF : List Char → List Char
  | [] => []
  | [c] => [c]
  | c :: c2 :: rest =>
    if c = '\r' then
      if c2 = '\n' then '\n' :: replaceCRLF rest
      else c :: replaceCRLF (c2 :: rest)
    else c :: replaceCRLF (c2 :: rest)

/-- `vtt_content.replace('\r\n', '\n').replace('\r', '\n')`. -/
def normalizeNewlines (l : List Char) : List Char :=
  pyReplaceChar '\r' '\n' (replaceCRLF l)

/-- Python `str.lower()` (ASCII letters; the inputs under test are ASCII). -/
def toLowerList (l : List Char) : List Char := l.map Char.toLower

/-- Python `str.upper()` (ASCII letters; the inputs under test are ASCII). -/
def toUpperList (l : List Char) : List Char := l.map Char.toUpper

/-- Python `str.isdigit()`: non-empty and all digits. -/
def pyIsDigit (l : List Char) : Bool := !l.isEmpty && l.all Char.isDigit

/-- Python `needle in haystack` (substring containment). -/
def isSubstr (needle hay : List Char) : Bool :=
  (List.range (hay.length + 1)).any fun i => needle.isPrefixOf (hay.drop i)

/-- Python `haystack.find(needle)` restricted to a found result: the least
index at which `needle` occurs, `none` when it does not occur (`find`
returns `-1` there). -/
def strFind (hay needle : List Char) : Option Nat :=
  (List.range (hay.length + 1)).find? fun i => needle.isPrefixOf (hay.drop i)

/-- Python `len(text.split())`: number of maximal non-empty runs of
non-whitespace characters. -/
def pyWordCount (l : List Char) : Nat :=
  ((splitOnChar ' ' (l.map fun c => if isPyWhite c then ' ' else c)).filter
    fun w => !w.isEmpty).length

/-- Numeric value of a digit string (the digits are already validated). -/
def digitsVal (l : List Char) : Nat :=
  l.foldl (fun acc c => acc * 10 + (c.toNat - '0'.toNat)) 0

/-- Python `int(s)` restricted to the decimal grammar (optional surrounding
whitespace, optional sign, non-empty digit run); anything else raises
`ValueError`, modelled as `Except.error`. -/
def pyInt (l : List Char) : Except String Int :=
  match pyStrip l with
  | [] => .error "invalid literal for int"
  | c :: cs =>
    if c = '+' then
      if pyIsDigit cs then .ok (digitsVal cs) else .error "invalid literal for int"
    else if c = '-' then
      if pyIsDigit cs then .ok (-(digitsVal cs : Int)) else .error "invalid literal for int"
    else
      if pyIsDigit (c :: cs) then .ok (digitsVal (c :: cs))
      else .error "invalid literal for int"

/-- Parse an unsigned decimal literal `digits [. digits]` (either side of the
point may be empty but not both); value in `ℚ`. -/
def pyFloatBody (l : List Char) : Except String ℚ :=
  let ip := l.takeWhile Char.isDigit
  match l.dropWhile Char.isDigit with
  | [] =>
    if ip.isEmpty then .error "could not convert string to float"
    else .ok (digitsVal ip : ℚ)
  | c :: fp =>
    if c = '.' then
      if fp.all Char.isDigit && (!ip.isEmpty || !fp.isEmpty) then
        .ok ((digitsVal ip : ℚ) + (digitsVal fp : ℚ) / (10 : ℚ) ^ fp.length)
      else .error "could not convert string to float"
    else .error "could not convert string to float"

/-- Python `float(s)` restricted to decimal literals (optional surrounding
whitespace, optional sign, `digits [. digits]`); exponents, `inf` and `nan`
do not occur in the data under test.  Failure models `ValueError`. -/
def pyFloat (l : List Char) : Except String ℚ :=
  match pyStrip l with
  | [] => pyFloatBody []
  | c :: cs =>
    if c = '+' then pyFloatBody cs
    else if c = '-' then do let q ← pyFloatBody cs; .ok (-q)
    else pyFloatBody (c :: cs)

/-- Round-half-to-even to an integer, as Python's `round` does on exactly
representable values. -/
def roundHalfEven (x : ℚ) : ℤ :=
  let f := ⌊x⌋
  let r := x - (f : ℚ)
  if r < 1 / 2 then f
  else if 1 / 2 < r then f + 1
  else if f % 2 = 0 then f else f + 1

/-- Python `round(x, 1)` on exactly representable values. -/
def pyRound1 (x : ℚ) : ℚ := (roundHalfEven (10 * x) : ℚ) / 10

/-! ## `extract_metrics/app.py` — `parse_timestamp` (lines 54–64) -/

/-- `parse_timestamp` over the character-list model of its argument.

```python
def parse_timestamp(ts: str) -> float:
    ts = ts.replace(',', '.').strip()
    parts = ts.split(':')
    if len(parts) == 3:
        h, m, s = parts
        return int(h) * 3600 + int(m) * 60 + float(s)
    elif len(parts) == 2:
        m, s = parts
        return int(m) * 60 + float(s)
    return 0.0
```
An `Except.error` result models an uncaught `ValueError` from `int`/`float`. -/
def parse_timestamp_chars (ts : List Char) : Except String ℚ :=
  let t := pyStrip (pyReplaceChar ',' '.' ts)
  match splitOnChar ':' t with
  | [h, m, s] => do
    let hi ← pyInt h
    let mi ← pyInt m
    let sq ← pyFloat s
    .ok ((hi : ℚ) * 3600 + (mi : ℚ) * 60 + sq)
  | [m, s] => do
    let mi ← pyInt m
    let sq ← pyFloat s
    .ok ((mi : ℚ) * 60 + sq)
  | _ => .ok 0

/-- `parse_timestamp` on a Lean `String`. -/
def parse_timestamp (ts : String) : Except String ℚ :=
  parse_timestamp_chars ts.toList

/-! ## `extract_metrics/app.py` — `parse_vtt_segments` (lines 67–106)

The cue-recognition regex is
`(\d{1,2}:\d{2}:\d{2}[.,]\d+)\s*-->\s*(\d{1,2}:\d{2}:\d{2}[.,]\d+)`,
applied with `re.match` (anchored at the start of the stripped line, trailing
text allowed).  The matchers below implement it directly; `\d{1,2}` followed
by `:` is resolved greedily with backtracking exactly as the regex engine
does (try two digits then a colon, else one digit then a colon). -/

/-- Match `\d{1,2}:`, returning the digit characters and the rest. -/
def matchHh : List Char → Option (List Char × List Char)
  | a :: b :: rest =>
    if a.isDigit && b.isDigit then
      match rest with
      | c :: rest2 => if c = ':' then some ([a, b], rest2) else none
      | [] => none
    else if a.isDigit && b = ':' then
      some ([a], rest)
    else none
  | _ => none

/-- Match `\d{2}`, returning the two digits and the rest. -/
def match2d : List Char → Option (List Char × List Char)
  | a :: b :: rest => if a.isDigit && b.isDigit then some ([a, b], rest) else none
  | _ => none

/-- Match one timestamp group `\d{1,2}:\d{2}:\d{2}[.,]\d+`; returns the
matched text and the unconsumed rest. -/
def matchTs (l : List Char) : Option (List Char × List Char) := do
  let (h, r1) ← matchHh l
  let (m, r2) ← match2d r1
  match r2 with
  | [] => none
  | c2 :: r3 =>
    if c2 = ':' then do
      let (s, r4) ← match2d r3
      match r4 with
      | sep :: r5 =>
        if sep = '.' || sep = ',' then
          let ds := r5.takeWhile Char.isDigit
          if ds.isEmpty then none
          else some (h ++ ':' :: m ++ ':' :: s ++ sep :: ds, r5.dropWhile Char.isDigit)
        else none
      | [] => none
    else none

/-- `timestamp_pattern.match(line)`: both timestamp groups of a cue line, or
`none` when the line does not start with a timestamp range. -/
def matchTsLine (l : List Char) : Option (List Char × List Char) := do
  let (g1, r1) ← matchTs l
  match r1.dropWhile isPyWhite with
  | '-' :: '-' :: '>' :: r3 =>
    let (g2, _) ← matchTs (r3.dropWhile isPyWhite)
    some (g1, g2)
  | _ => none

/-- The float value `parse_timestamp` produces on a regex-matched timestamp
group (where it cannot raise; `tsQ_spec` below justifies the default). -/
def tsQ (g : List Char) : ℚ := (parse_timestamp_chars g).toOption.getD 0

/-- One parsed cue: `(start_sec, end_sec, text)`. -/
structure Segment where
  start_sec : ℚ
  end_sec : ℚ
  text : String
  deriving DecidableEq, Repr

/-- The inner `while` of `parse_vtt_segments`: greedily consume text lines
until a blank line, a new timestamp line, a numeric cue-index line, or end of
input; returns the collected (stripped) text lines and the unconsumed rest
(the breaking line is not consumed). -/
def collectText : List (List Char) → List (List Char) × List (List Char)
  | [] => ([], [])
  | l :: ls =>
    let t := pyStrip l
    if t.isEmpty || (matchTsLine t).isSome || pyIsDigit t then ([], l :: ls)
    else
      let (txts, rest) := collectText ls
      (t :: txts, rest)

theorem collectText_rest_length (ls : List (List Char)) :
    (collectText ls).2.length ≤ ls.length := by
  induction ls with
  | nil => simp [collectText]
  | cons l ls ih =>
    simp only [collectText]
    split
    · simp
    · simpa using Nat.le_succ_of_le ih

/-- Python `sep.join(parts)` for a one-character separator. -/
def joinChar (sep : Char) : List (List Char) → List Char
  | [] => []
  | [l] => l
  | l :: ls => l ++ sep :: joinChar sep ls

/-- `' '.join(text_lines)`. -/
def joinSpace (ls : List (List Char)) : List Char := joinChar ' ' ls

/-- The outer `while` of `parse_vtt_segments` over the split lines, with an
explicit structural bound: the loop index only moves forward, so the line
count bounds the number of iterations and the fuel is never exhausted
(`scanLinesF_congr` below shows any sufficient fuel gives the same result). -/
def scanLinesF : Nat → List (List Char) → List Segment
  | 0, _ => []
  | _, [] => []
  | fuel + 1, l :: ls =>
    match matchTsLine (pyStrip l) with
    | some (g1, g2) =>
      (if (collectText ls).1.isEmpty then []
       else [⟨tsQ g1, tsQ g2, (joinSpace (collectText ls).1).asString⟩]) ++
        scanLinesF fuel (collectText ls).2
    | none => scanLinesF fuel ls

/-- The outer `while` of `parse_vtt_segments`. -/
def scanLines (lines : List (List Char)) : List Segment :=
  scanLinesF lines.length lines

theorem scanLinesF_congr : ∀ (f g : Nat) (ls : List (List Char)),
    ls.length ≤ f → ls.length ≤ g → scanLinesF f ls = scanLinesF g ls := by
  intro f
  induction f with
  | zero =>
    intro g ls hf _
    have : ls = [] := List.length_eq_zero.mp (Nat.le_zero.mp hf)
    subst this
    cases g <;> rfl
  | succ f ih =>
    intro g ls hf hg
    cases ls with
    | nil => cases g <;> rfl
    | cons l ls =>
      cases g with
      | zero => exact absurd hg (by simp)
      | succ g =>
        simp only [scanLinesF]
        have hf' : ls.length ≤ f := Nat.le_of_succ_le_succ (by simpa using hf)
        have hg' : ls.length ≤ g := Nat.le_of_succ_le_succ (by simpa using hg)
        have hr : (collectText ls).2.length ≤ ls.length := collectText_rest_length ls
        cases hm : matchTsLine (pyStrip l) with
        | some p =>
          rw [ih g (collectText ls).2 (le_trans hr hf') (le_trans hr hg')]
        | none =>
          exact ih g ls hf' hg'

theorem scanLines_cons_ts {l : List Char} {ls : List (List Char)}
    {g1 g2 : List Char} (hm : matchTsLine (pyStrip l) = some (g1, g2)) :
    scanLines (l :: ls) =
      (if (collectText ls).1.isEmpty then []
       else [⟨tsQ g1, tsQ g2, (joinSpace (collectText ls).1).asString⟩]) ++
        scanLines (collectText ls).2 := by
  show scanLinesF (ls.length + 1) (l :: ls) = _
  simp only [scanLinesF, hm]
  rw [scanLinesF_congr ls.length (collectText ls).2.length (collectText ls).2
    (collectText_rest_length ls) (Nat.le_refl _)]
  rfl

theorem scanLines_cons_notts {l : List Char} {ls : List (List Char)}
    (hm : matchTsLine (pyStrip l) = none) :
    scanLines (l :: ls) = scanLines ls := by
  show scanLinesF (ls.length + 1) (l :: ls) = _
  simp only [scanLinesF, hm]
  rfl

/-- `parse_vtt_segments` (lines 67–106): empty input short-circuits to `[]`;
otherwise normalize line endings, split on `'\n'`, and scan. -/
def parse_vtt_segments (vtt_content : String) : List Segment :=
  if vtt_content = "" then []
  else scanLines (splitOnChar '\n' (normalizeNewlines vtt_content.toList))

/-! ## `extract_metrics/app.py` — `parse_vtt_with_speakers` (lines 124–185)

The speaker regex is `^([^:]{2,50}):\s*(.*)$` applied with `re.match`.  With
backtracking resolved: the pattern matches iff the first colon of the text
sits at an index `p` with `2 ≤ p ≤ 50`; group 1 is then the `p` characters
before that colon and group 2 the text after the colon with its leading
whitespace removed (`\s*` is greedy and segment texts contain no newline). -/

/-- `speaker_pattern.match(vtt_text)`: `some (group1, group2)` or `none`. -/
def matchSpeaker (t : List Char) : Option (List Char × List Char) :=
  match t.findIdx? (· = ':') with
  | some p =>
    if 2 ≤ p && p ≤ 50 then
      some (t.take p, (t.drop (p + 1)).dropWhile isPyWhite)
    else none
  | none => none

/-- Output record of `parse_vtt_with_speakers`. -/
structure SpeakerTiming where
  coach_duration_sec : ℚ
  client_duration_sec : ℚ
  coach_words : Nat
  client_words : Nat
  deriving DecidableEq, Repr

/-- The all-zero output returned when the VTT content or coach name is
missing. -/
def zeroTiming : SpeakerTiming := ⟨0, 0, 0, 0⟩

/-- The body of the `for start_sec, end_sec, vtt_text in segments` loop:
the contribution of one segment given the lower-cased stripped coach name. -/
def segAttrib (coachLower : List Char) (seg : Segment) (acc : SpeakerTiming) :
    SpeakerTiming :=
  let dur := seg.end_sec - seg.start_sec
  match matchSpeaker seg.text.toList with
  | some (g1, g2) =>
    let speaker_name := toLowerList (pyStrip g1)
    let actual_text := pyStrip g2
    let wc := pyWordCount actual_text
    if isSubstr coachLower speaker_name || isSubstr speaker_name coachLower then
      { acc with coach_duration_sec := acc.coach_duration_sec + dur,
                 coach_words := acc.coach_words + wc }
    else
      { acc with client_duration_sec := acc.client_duration_sec + dur,
                 client_words := acc.client_words + wc }
  | none =>
    let wc := pyWordCount seg.text.toList
    { acc with client_duration_sec := acc.client_duration_sec + dur,
               client_words := acc.client_words + wc }

/-- `parse_vtt_with_speakers` (lines 124–185). -/
def parse_vtt_with_speakers (vtt_content : String) (coach_name : String) :
    SpeakerTiming :=
  if vtt_content = "" || coach_name = "" then zeroTiming
  else
    let segments := parse_vtt_segments vtt_content
    let coach_name_lower := pyStrip (toLowerList coach_name.toList)
    segments.foldl (fun acc seg => segAttrib coach_name_lower seg acc) zeroTiming

/-! ## `case_check/app.py` — static checklist (lines 328–359)

`STARTER_SESSION_CHECKS` with the fields the engine reads (`id`, `required`,
`severity`, `theme`); the long natural-language `prompt` strings are only
interpolated into the LLM prompt and into human-readable failure labels, so
they are not reproduced here. -/

structure ChecklistItem where
  id : String
  required : Bool
  severity : String
  theme : String
  deriving DecidableEq, Repr

def STARTER_SESSION_CHECKS : List ChecklistItem := [
  ⟨"call_recording_confirmed", true, "high", "businessRisk"⟩,
  ⟨"regulated_advice_given", true, "high", "businessRisk"⟩,
  ⟨"vulnerability_identified", true, "high", "businessRisk"⟩,
  ⟨"dob_confirmed", true, "medium", "businessRisk"⟩,
  ⟨"client_name_confirmed", true, "medium", "businessRisk"⟩,
  ⟨"marital_status_confirmed", true, "medium", "businessRisk"⟩,
  ⟨"citizenship_confirmed", true, "medium", "businessRisk"⟩,
  ⟨"dependents_confirmed", true, "medium", "businessRisk"⟩,
  ⟨"pension_details_confirmed", true, "medium", "businessRisk"⟩,
  ⟨"income_expenditure_confirmed", true, "medium", "businessRisk"⟩,
  ⟨"assets_liabilities_confirmed", true, "medium", "businessRisk"⟩,
  ⟨"emergency_fund_confirmed", true, "medium", "businessRisk"⟩,
  ⟨"will_confirmed", true, "low", "businessRisk"⟩,
  ⟨"pension_withdrawal_if_over_50", false, "medium", "businessRisk"⟩,
  ⟨"high_interest_debt_addressed", false, "high", "businessRisk"⟩,
  ⟨"fees_charges_explained", true, "high", "businessRisk"⟩,
  ⟨"way_forward_agreed", true, "medium", "businessRisk"⟩,
  ⟨"money_calculators_introduced", true, "medium", "businessRisk"⟩,
  ⟨"coach_introduction_signposting", true, "medium", "customerExperience"⟩,
  ⟨"client_goals_established", true, "high", "customerExperience"⟩,
  ⟨"client_motivations_established", true, "medium", "customerExperience"⟩,
  ⟨"asked_client_move_forward", true, "high", "customerExperience"⟩,
  ⟨"client_questions_opportunity", true, "medium", "customerExperience"⟩]

/-- `severity_by_id = {c["id"]: c.get("severity", "low") for c in
STARTER_SESSION_CHECKS}` followed by `.get(check_id)` (the ids are distinct,
so first-match lookup equals the dict); `none` models a missing key. -/
def severity_by_id (check_id : String) : Option String :=
  (STARTER_SESSION_CHECKS.find? fun c => c.id = check_id).map (·.severity)

/-! ## `case_check/app.py` — raw classifier output

The tool-use input is raw JSON.  A raw `results` element is either a JSON
object — whose fields the handler reads with `.get`, hence `Option` — or
some other value (`rother`), which the handler skips (`isinstance(r, dict)`)
and pydantic later rejects.  A non-string `status`/`id`/`evidence_quote`
value behaves exactly like an absent one on every path the claims touch
(`r.get("status") == "Fail"` is false for it, and pydantic validation
rejects the payload before anything is persisted), so such values are
conflated with `none`. -/

/-- A JSON value as it can appear inside a raw `evidence_spans` entry. -/
inductive PyVal where
  | pnone
  | pbool (b : Bool)
  | pint (n : Int)
  | pfloat (q : ℚ)
  | pstr (s : String)
  | plist (xs : List PyVal)

structure RawDict where
  id? : Option String
  status? : Option String
  confidence? : Option ℚ
  evidence_spans? : Option (List PyVal)
  evidence_quote? : Option String
  comment? : Option String

inductive RawElem where
  | rdict (d : RawDict)
  | rother

/-! ## `case_check/app.py` — fallback `overall` computation (lines 765–808) -/

/-- The `overall` object.  The classifier's `overall` is an arbitrary JSON
object read with `.get`, hence every field is an `Option`; the fallback
computation fills all four fields. -/
structure Overall where
  pass_rate? : Option ℚ
  failed_ids? : Option (List String)
  high_severity_flags? : Option (List String)
  has_high_severity_failures? : Option Bool
  deriving DecidableEq, Repr

/-- The body of the `for r in results_list` loop of the fallback computation:
a result contributes iff it is a dict whose `status` is `"Fail"`; its id
(default `""`) is appended to `failed_ids`, and also to
`high_severity_flags` when the static checklist maps it to severity
`"high"`. -/
def collectStep (acc : List String × List String) (r : RawElem) :
    List String × List String :=
  match r with
  | .rdict d =>
    if d.status? = some "Fail" then
      let check_id := d.id?.getD ""
      (acc.1 ++ [check_id],
       if severity_by_id check_id = some "high" then acc.2 ++ [check_id] else acc.2)
    else acc
  | .rother => acc

/-- The `for r in results_list` loop: collect `failed_ids` and
`high_severity_flags` in result order. -/
def collectFailures (results_list : List RawElem) : List String × List String :=
  results_list.foldl collectStep ([], [])

/-- Lines 771–794: pass rate, failed ids and severity flags computed from the
results when the model omitted `overall`.  (The code's other fallback — an
all-empty `overall` when `results` is not a list — is unreachable in this
model because a non-list `results` value fails pydantic validation before
anything observable happens; see `validatePayload`.) -/
def computeOverall (results_list : List RawElem) : Overall :=
  let total_checks := results_list.length
  let failed_ids := (collectFailures results_list).1
  let high_severity_flags := (collectFailures results_list).2
  let passed_count : ℤ := (total_checks : ℤ) - (failed_ids.length : ℤ)
  let pass_rate : ℚ :=
    if 0 < total_checks then (passed_count : ℚ) / (total_checks : ℚ) * 100 else 0
  { pass_rate? := some (pyRound1 pass_rate),
    failed_ids? := some failed_ids,
    high_severity_flags? := some high_severity_flags,
    has_high_severity_failures? := some (decide (0 < high_severity_flags.length)) }

/-! ## `case_check/app.py` — evidence-span cleanup (lines 810–845) -/

/-- Python `int(v)` applied to a span element inside
`try: ... except (ValueError, TypeError)`: `none` models the caught raise. -/
def pyValToInt : PyVal → Option Int
  | .pbool b => some (if b then 1 else 0)
  | .pint n => some n
  | .pfloat q => some (if 0 ≤ q then ⌊q⌋ else -⌊-q⌋)
  | .pstr s => (pyInt s.toList).toOption
  | .pnone => none
  | .plist _ => none

/-- One span survives the filter iff it is a 2-element list whose elements
both coerce with `int(...)`. -/
def coerceSpan : PyVal → Option (Int × Int)
  | .plist [a, b] => do
    let x ← pyValToInt a
    let y ← pyValToInt b
    some (x, y)
  | _ => none

/-- Lines 814–845 for one result item: the final `evidence_spans` value from
the raw quote and raw spans.  (When the raw span list is empty the code skips
the filter and leaves the field alone; both give the empty list, as does the
all-whitespace-quote branch that never writes the field.) -/
def fixResultSpans (transcript : List Char) (evidence_quote : String)
    (evidence_spans : List PyVal) : List (Int × Int) :=
  let valid_spans := evidence_spans.filterMap coerceSpan
  if evidence_quote ≠ "" ∧ valid_spans = [] then
    let clean_quote := pyStrip evidence_quote.toList
    if clean_quote.isEmpty then valid_spans
    else
      match strFind transcript clean_quote with
      | some pos => [((pos : Int), (pos : Int) + (clean_quote.length : Int))]
      | none =>
        match strFind transcript (clean_quote.take 50) with
        | some pos => [((pos : Int), (pos : Int) + (clean_quote.length : Int))]
        | none => []
  else valid_spans

/-- Lines 811–845 applied to one raw `results` element.  The code writes the
cleaned span list back into the item in every reachable branch in which the
final value can differ from what pydantic would read anyway (missing field ↦
default `[]`), so the write-back is modelled unconditionally for dict
items; non-dict items are left untouched. -/
def fixElem (transcript : List Char) : RawElem → RawElem
  | .rdict d =>
    let evidence_quote := d.evidence_quote?.getD ""
    let evidence_spans := d.evidence_spans?.getD []
    let final := fixResultSpans transcript evidence_quote evidence_spans
    let asJson := final.map fun p => PyVal.plist [PyVal.pint p.1, PyVal.pint p.2]
    .rdict { d with evidence_spans? := some asJson }
  | .rother => .rother

/-! ## `case_check/app.py` — pydantic validation (lines 227–249, 873–874) -/

/-- The `Status` literal values. -/
def statusLiterals : List String :=
  ["Competent", "CompetentWithDevelopment", "Fail", "NotApplicable", "Inconclusive"]

/-- `CaseCheckResult` after `CaseCheckPayload.model_validate(...).model_dump()`:
`status` is one of the five literals, `confidence` is a number, spans are
integer pairs; `evidence_quote`/`comment` are `Optional[str]` (so `None` can
survive validation and is only replaced by `""` in the final cleanup loop). -/
structure VResult where
  id : String
  status : String
  confidence : ℚ
  evidence_spans : List (Int × Int)
  evidence_quote? : Option String
  comment? : Option String
  deriving DecidableEq, Repr

/-- Validated `CaseCheckPayload` (the `overall` field is a plain `dict` in the
pydantic model, so it passes through unconstrained). -/
structure CasePayload where
  check_schema_version : String
  session_type : String
  checklist_version : String
  meeting_id : String
  model_version : String
  prompt_version : String
  results : List VResult
  overall : Overall
  deriving DecidableEq, Repr

/-- One entry of a raw `evidence_spans` list at validation time.  Every
reachable input is an integer pair written by `fixElem`; anything else fails
validation. -/
def parseSpan (v : PyVal) : Except String (Int × Int) :=
  match v with
  | .plist [.pint a, .pint b] => .ok (a, b)
  | _ => .error "evidence_spans: invalid span"

/-- Pydantic validation of one `results` element. -/
def validateResult (r : RawElem) : Except String VResult :=
  match r with
  | .rother => .error "results: input should be a valid dictionary"
  | .rdict d => do
    let i ← match d.id? with
      | some s => Except.ok s
      | none => Except.error "id: field required"
    let st ← match d.status? with
      | some s =>
        if statusLiterals.contains s then Except.ok s
        else Except.error "status: not a permitted literal"
      | none => Except.error "status: field required"
    let conf ← match d.confidence? with
      | some q => Except.ok q
      | none => Except.error "confidence: field required"
    let spans ← (d.evidence_spans?.getD []).mapM parseSpan
    Except.ok { id := i, status := st, confidence := conf, evidence_spans := spans,
                evidence_quote? := d.evidence_quote?, comment? := d.comment? }

/-! ## `case_check/app.py` — deployment constants

Modelled from the spec: the `constants` module imported with
`from constants import *` is not under `src/`; per the spec (§3, §6) these
are fixed, versioned deployment tags, identical across all invocations.
Their concrete values are opaque and immaterial to every claim. -/

def CASE_CHECK_SCHEMA_VERSION : String := "1"

def SCHEMA_VERSION : String := "1"

def MODEL_VERSION : String := "model-version"

def PROMPT_VERSION : String := "prompt-version"

/-! ## `case_check/app.py` — final cleanup and flags (lines 876–898) -/

/-- The body of the `for r in data.get("results", [])` loop: default the
quote/comment (`r.get(...) or ""`), clamp confidence into `[0, 1]`, and
accumulate the two derived booleans. -/
def finalizeStep (acc : List VResult × Bool × Bool) (r : VResult) :
    List VResult × Bool × Bool :=
  let r' : VResult := { r with
    evidence_quote? := some (r.evidence_quote?.getD ""),
    comment? := some (r.comment?.getD ""),
    confidence := max 0 (min 1 r.confidence) }
  (acc.1 ++ [r'],
   acc.2.1 || (r.status == "Fail" && severity_by_id r.id == some "high"),
   acc.2.2 || (r.id == "vulnerability_identified" &&
     (r.status == "Competent" || r.status == "Fail")))

/-- The `for r in data.get("results", [])` loop. -/
def finalizeLoop (results : List VResult) : List VResult × Bool × Bool :=
  results.foldl finalizeStep ([], false, false)

/-- Lines 876–898: overwrite the metadata tags, run the cleanup loop, and
store the recomputed `has_high_severity_failures` into `overall`.  Returns
the finished payload and the `has_vulnerability` flag. -/
def finalizeData (meeting_id : String) (p : CasePayload) : CasePayload × Bool :=
  let fin := finalizeLoop p.results
  let overall' : Overall := { p.overall with has_high_severity_failures? := some fin.2.1 }
  ({ p with meeting_id := meeting_id, model_version := MODEL_VERSION,
            prompt_version := PROMPT_VERSION, results := fin.1, overall := overall' },
   fin.2.2)

/-! ## `case_check/app.py` — `lambda_handler` (lines 555–918) -/

/-- The raw `results` field: either a JSON array or — the defensive case of
lines 739–763 — a string that still has to be decoded. -/
inductive RawResults where
  | asList (rs : List RawElem)
  | asString (s : String)

/-- The tool-use input of the Converse response (raw JSON; the metadata
fields are filled by `setdefault` and therefore not modelled as inputs).
`overall? = none` models a missing or falsy (empty) `overall` object. -/
structure RawPayload where
  results? : Option RawResults
  overall? : Option Overall

/-- The Bedrock Converse response as read by the handler. -/
structure ClassifierResp where
  stopReason : String
  toolUse? : Option RawPayload

/-- Call analytics: a flat mapping of named numeric metrics, either passed in
from the ExtractMetrics step or computed locally; carried opaquely into the
persisted payload. -/
abbrev CallAnalytics := List (String × ℚ)

/-- The persisted case-check JSON: the validated payload plus the
`call_analytics` object added at line 901. -/
structure CaseData where
  payload : CasePayload
  call_analytics : CallAnalytics
  deriving DecidableEq

/-- Lines 707–898, the pure core of one classification attempt: extract the
tool-use block, fail hard on truncation, decode a stringified `results`
field (`decode` models `helper.parse_stringified_fields`, whose module is
not under `src/`; per the spec §9 it is an explicit decode step returning a
tagged ok/error result), compute `overall` when absent, clean up the
evidence spans, validate with pydantic, and run the final cleanup/flag loop.
Returns the payload to persist, the `has_vulnerability` flag, and the pass
rate read back at line 910. -/
def processCase (decode : String → Except String (List RawElem))
    (transcript : String) (meeting_id : String) (resp : ClassifierResp)
    (analytics : CallAnalytics) : Except String (CaseData × Bool × ℚ) :=
  match resp.toolUse? with
  | none => .error "No tool use block found in response"
  | some vj =>
    if resp.stopReason = "max_tokens" then
      .error ("Response truncated at max_tokens for meeting " ++ meeting_id)
    else
      match (match vj.results? with
             | some (.asString s) => (decode s).map some
             | some (.asList rs) => Except.ok (some rs)
             | none => Except.ok none) with
      | .error e => .error e
      | .ok results? =>
        let overall := match vj.overall? with
          | some o => o
          | none => computeOverall (results?.getD [])
        match results?.map (·.map (fixElem transcript.toList)) with
        | none => .error "results: field required"
        | some rawResults =>
          match rawResults.mapM validateResult with
          | .error e => .error e
          | .ok vresults =>
            let parsed : CasePayload :=
              { check_schema_version := CASE_CHECK_SCHEMA_VERSION,
                session_type := "starter_session", checklist_version := "1",
                meeting_id := meeting_id, model_version := MODEL_VERSION,
                prompt_version := PROMPT_VERSION, results := vresults,
                overall := overall }
            let fin := finalizeData meeting_id parsed
            .ok ({ payload := fin.1, call_analytics := analytics }, fin.2,
                 fin.1.overall.pass_rate?.getD 0)

/-- The deterministic S3 key of the persisted case-check JSON:
`{S3_PREFIX}/supplementary/version={SCHEMA_VERSION}/year={y}/month={m:02d}/meeting_id={id}/case_check.v{CASE_CHECK_SCHEMA_VERSION}.json`.
Only the variable components distinguish keys within one deployment. -/
structure CaseKey where
  year : Nat
  month : Nat
  meetingId : String
  deriving DecidableEq

/-- The S3 summary bucket restricted to case-check objects. -/
abbrev CaseStore := List (CaseKey × CaseData)

/-- `s3.get_object` on a case-check key (`none` models `NoSuchKey`). -/
def storeLookup (st : CaseStore) (k : CaseKey) : Option CaseData :=
  (st.find? fun e => e.1 = k).map (·.2)

/-- `s3.put_object`: overwrite semantics. -/
def storePut (st : CaseStore) (k : CaseKey) (d : CaseData) : CaseStore :=
  (k, d) :: st.filter fun e => ¬ e.1 = k

/-- A persistence side effect of the handler. -/
inductive PersistAction where
  | putCaseJson (key : CaseKey) (data : CaseData)
  | putAssessmentRecords (meetingId : String) (data : CaseData)

/-- The handler's return value.  The idempotent fast path (lines 591–608)
returns only `caseData`/`caseKey`/`passRate`, so `hasVulnerability?` is
`none` there. -/
structure HandlerOutput where
  caseData : CaseData
  caseKey : CaseKey
  passRate : ℚ
  hasVulnerability? : Option Bool

/-- Result of one handler invocation: the returned value or raised error,
the persistence actions performed (in order), and whether the classifier
was invoked. -/
structure HandlerResult where
  result : Except String HandlerOutput
  writes : List PersistAction
  invokedClassifier : Bool

/-- `lambda_handler` of `case_check/app.py`.  The external collaborators are
explicit arguments: the current UTC year/month, the transcript text behind
`redactedTranscriptKey`, the metrics from the event (or the local
fallback computation — either way an opaque numeric mapping), and the
classifier response the Converse call would return.  An event field that is
absent or empty is modelled as `""` (both are falsy in the guards). -/
def case_check_handler (store : CaseStore) (year month : Nat)
    (transcript : String) (analytics : CallAnalytics)
    (decode : String → Except String (List RawElem)) (resp : ClassifierResp)
    (transcript_key : String) (meeting_id : String) (force_reprocess : Bool) :
    HandlerResult :=
  if transcript_key = "" then ⟨.error "redactedTranscriptKey is required", [], false⟩
  else if meeting_id = "" then ⟨.error "meetingId is required", [], false⟩
  else
    let case_key : CaseKey := ⟨year, month, meeting_id⟩
    match (if force_reprocess then none else storeLookup store case_key) with
    | some case_data =>
      ⟨.ok { caseData := case_data, caseKey := case_key,
             passRate := case_data.payload.overall.pass_rate?.getD 0,
             hasVulnerability? := none }, [], false⟩
    | none =>
      match processCase decode transcript meeting_id resp analytics with
      | .error e => ⟨.error e, [], true⟩
      | .ok (data, hv, pr) =>
        ⟨.ok { caseData := data, caseKey := case_key, passRate := pr,
               hasVulnerability? := some hv },
         [.putCaseJson case_key data, .putAssessmentRecords meeting_id data], true⟩

/-! ## `initiate_case_check/app.py` and the whole pipeline -/

/-- The per-meeting record of the summary-job DynamoDB table, restricted to
the attributes the case-check workflow reads/writes.  `casePassRate` is read
with `float(item.get("casePassRate", 0.0))`, so a missing attribute is
modelled as `0`. -/
structure JobRecord where
  caseCheckStatus : String
  caseCheckKey? : Option CaseKey
  casePassRate : ℚ
  deriving DecidableEq

/-- The shared state for one meeting identifier: the DynamoDB job record and
the S3 case-check objects. -/
structure Store where
  job? : Option JobRecord
  cases : CaseStore

/-- `_get_existing_case_check` (initiate_case_check lines 176–196, DynamoDB
path): completed iff `caseCheckStatus` upper-cases to `COMPLETED` and a
`caseCheckKey` is recorded; returns the key, the recorded pass rate and the
status. -/
def get_existing_case_check (st : Store) : Option (CaseKey × ℚ × String) :=
  match st.job? with
  | none => none
  | some item =>
    match item.caseCheckKey? with
    | none => none
    | some key =>
      if toUpperList item.caseCheckStatus.toList = "COMPLETED".toList then
        some (key, item.casePassRate,
          (toUpperList item.caseCheckStatus.toList).asString)
      else none

/-- Outcome of `_mark_queued` (lines 227–300). -/
inductive MarkOutcome where
  | marked (st : Store)
  | completedRace (key : CaseKey) (passRate : ℚ)
  | alreadyCompletedError

/-- `_mark_queued`: `update_item` setting `caseCheckStatus = QUEUED`
(preserving the other attributes), guarded — unless `force` — by the
condition `attribute_not_exists(caseCheckStatus) OR caseCheckStatus <>
COMPLETED`; a conditional-check failure re-reads the existing data. -/
def mark_queued (st : Store) (force : Bool) : MarkOutcome :=
  let updated : Store :=
    { st with job? := some (match st.job? with
        | some r => { r with caseCheckStatus := "QUEUED" }
        | none => { caseCheckStatus := "QUEUED", caseCheckKey? := none, casePassRate := 0 }) }
  if force then .marked updated
  else if (st.job?.map (·.caseCheckStatus)).getD "" = "COMPLETED" then
    match get_existing_case_check st with
    | some (key, rate, _) => .completedRace key rate
    | none => .alreadyCompletedError
  else .marked updated

/-- Apply the handler's persistence actions to the store (assessment-table
records live outside the `CaseStore`). -/
def applyWrites (cases : CaseStore) : List PersistAction → CaseStore
  | [] => cases
  | .putCaseJson k d :: rest => applyWrites (storePut cases k d) rest
  | .putAssessmentRecords _ _ :: rest => applyWrites cases rest

/-- Modelled from the spec: the Step Functions workflow's completion step —
not under `src/` (only the initiation and worker lambdas are) — records the
finished case check on the job record: `caseCheckStatus = COMPLETED`, the
produced S3 key, and the pass rate (spec §4.5/§6: "already exists is the
idempotency signal", state machine `QUEUED → COMPLETED`). -/
def finalize_completed (st : Store) (key : CaseKey) (passRate : ℚ) : Store :=
  let rec' : JobRecord :=
    { caseCheckStatus := "COMPLETED", caseCheckKey? := some key, casePassRate := passRate }
  { st with job? := some rec' }

/-- The environment of one pipeline run: the current UTC time partition and
the outputs the external collaborators would produce during it. -/
structure PipelineEnv where
  year : Nat
  month : Nat
  transcript : String
  analytics : CallAnalytics
  resp : ClassifierResp

/-- Observable outcome of one pipeline run. -/
structure PipelineResult where
  caseData? : Option CaseData
  passRate? : Option ℚ
  classified : Bool
  errored : Bool

/-- One end-to-end run for a meeting: `initiate_case_check.lambda_handler`
(fast path, `_mark_queued`) followed — when a workflow execution is started —
by the case-check worker and the spec-modelled completion step.  The
`initiate` fast path fetches the payload blob from S3 at the recorded
`caseCheckKey` and returns it with the recorded pass rate. -/
def runPipeline (st : Store) (env : PipelineEnv)
    (decode : String → Except String (List RawElem))
    (meeting_id : String) (transcript_key : String) (force_reprocess : Bool) :
    PipelineResult × Store :=
  match (if force_reprocess then none else get_existing_case_check st) with
  | some (key, rate, _) =>
    ({ caseData? := storeLookup st.cases key, passRate? := some rate,
       classified := false, errored := false }, st)
  | none =>
    match mark_queued st force_reprocess with
    | .completedRace key rate =>
      ({ caseData? := storeLookup st.cases key, passRate? := some rate,
         classified := false, errored := false }, st)
    | .alreadyCompletedError =>
      ({ caseData? := none, passRate? := none, classified := false, errored := true }, st)
    | .marked st1 =>
      let hr := case_check_handler st1.cases env.year env.month env.transcript
        env.analytics decode env.resp transcript_key meeting_id force_reprocess
      match hr.result with
      | .error _ =>
        ({ caseData? := none, passRate? := none,
           classified := hr.invokedClassifier, errored := true },
         { st1 with cases := applyWrites st1.cases hr.writes })
      | .ok out =>
        let st2 : Store := { st1 with cases := applyWrites st1.cases hr.writes }
        let st3 := finalize_completed st2 out.caseKey out.passRate
        ({ caseData? := some out.caseData, passRate? := some out.passRate,
           classified := hr.invokedClassifier, errored := false }, st3)

/-! ## Verification -/

theorem strFind_nil_needle (t : List Char) : strFind t [] = some 0 := by
  simp [strFind, List.range_succ_eq_map]

theorem pyStrip_nil : pyStrip [] = [] := rfl

/-- C4: For every result, evidence-span resolution follows the policy:
syntactically valid classifier-supplied spans (2-element integer-coercible
pairs, coerced, invalid pairs dropped) are kept and no text search is
performed; otherwise, a non-empty whitespace-stripped quote occurring in the
transcript at position `p` yields the single span `[p, p + len(quote)]`; a
quote that does not occur but whose first 50 characters occur at `p` also
yields `[p, p + len(full quote)]` (full quote length despite the truncated
needle); and if neither occurs the span list is empty. -/
theorem evidence_span_resolution_policy (t : List Char) (q : String)
    (spans : List PyVal) :
    (spans.filterMap coerceSpan ≠ [] →
      fixResultSpans t q spans = spans.filterMap coerceSpan) ∧
    (spans.filterMap coerceSpan = [] → pyStrip q.toList ≠ [] →
      ∀ p : Nat, strFind t (pyStrip q.toList) = some p →
        fixResultSpans t q spans =
          [((p : Int), (p : Int) + ((pyStrip q.toList).length : Int))]) ∧
    (spans.filterMap coerceSpan = [] → pyStrip q.toList ≠ [] →
      strFind t (pyStrip q.toList) = none →
      ∀ p : Nat, strFind t ((pyStrip q.toList).take 50) = some p →
        fixResultSpans t q spans =
          [((p : Int), (p : Int) + ((pyStrip q.toList).length : Int))]) ∧
    (spans.filterMap coerceSpan = [] → pyStrip q.toList ≠ [] →
      strFind t (pyStrip q.toList) = none →
      strFind t ((pyStrip q.toList).take 50) = none →
      fixResultSpans t q spans = []) := by
  have hq : pyStrip q.toList ≠ [] → q ≠ "" := by
    intro h hq
    subst hq
    exact h pyStrip_nil
  have hclean : pyStrip q.toList ≠ [] → (pyStrip q.toList).isEmpty = false := by
    intro h
    simpa [List.isEmpty_iff] using h
  refine ⟨?_, ?_, ?_, ?_⟩
  · intro hv
    simp only [fixResultSpans]
    rw [if_neg fun hc => hv hc.2]
  · intro hv hne p hp
    simp only [fixResultSpans]
    rw [if_pos ⟨hq hne, hv⟩, if_neg (by simpa [List.isEmpty_iff] using hne), hp]
  · intro hv hne h1 p hp
    simp only [fixResultSpans]
    rw [if_pos ⟨hq hne, hv⟩, if_neg (by simpa [List.isEmpty_iff] using hne), h1, hp]
  · intro hv hne h1 h2
    simp only [fixResultSpans]
    rw [if_pos ⟨hq hne, hv⟩, if_neg (by simpa [List.isEmpty_iff] using hne), h1, h2]

/-- Witness for C4: concrete spans, hit, truncated-needle hit, and miss. -/
theorem evidence_span_resolution_policy_witness :
    fixResultSpans "hello world".toList "world"
        [PyVal.plist [PyVal.pstr "3", PyVal.pint 9], PyVal.pnone] =
      [(3, 9)] ∧
    fixResultSpans "hello world".toList " world " [PyVal.pnone] = [(6, 11)] ∧
    fixResultSpans "hello world".toList "zzz" [] = [] := by
  refine ⟨(evidence_span_resolution_policy "hello world".toList "world"
      [PyVal.plist [PyVal.pstr "3", PyVal.pint 9], PyVal.pnone]).1 (by decide),
    ?_, ?_⟩
  · have h := (evidence_span_resolution_policy "hello world".toList " world "
      [PyVal.pnone]).2.1 (by decide) (by decide) 6 (by decide)
    simpa using h
  · have h := (evidence_span_resolution_policy "hello world".toList "zzz"
      []).2.2.2 (by decide) (by decide) (by decide) (by decide)
    simpa using h

theorem processCase_max_tokens (decode : String → Except String (List RawElem))
    (transcript meeting_id : String) (resp : ClassifierResp)
    (analytics : CallAnalytics) (h : resp.stopReason = "max_tokens") :
    ∃ e, processCase decode transcript meeting_id resp analytics = .error e := by
  unfold processCase
  cases resp.toolUse? with
  | none => exact ⟨_, rfl⟩
  | some vj =>
    simp only [h, if_pos]
    exact ⟨_, rfl⟩

/-- C5: If the classifier response indicates truncation
(`stopReason = "max_tokens"`), the handler raises for that invocation and
performs no persistence action at all — neither the S3 case-check object nor
any assessment-table record is written (the idempotent fast path, which does
not involve a classifier response, is excluded by the first hypothesis). -/
theorem truncated_response_not_persisted (store : CaseStore) (year month : Nat)
    (transcript : String) (analytics : CallAnalytics)
    (decode : String → Except String (List RawElem)) (resp : ClassifierResp)
    (transcript_key meeting_id : String) (force_reprocess : Bool)
    (hfast : force_reprocess = false → storeLookup store ⟨year, month, meeting_id⟩ = none)
    (htrunc : resp.stopReason = "max_tokens") :
    (∃ e, (case_check_handler store year month transcript analytics decode resp
        transcript_key meeting_id force_reprocess).result = .error e) ∧
    (case_check_handler store year month transcript analytics decode resp
        transcript_key meeting_id force_reprocess).writes = [] := by
  unfold case_check_handler
  by_cases htk : transcript_key = ""
  · rw [if_pos htk]
    exact ⟨⟨_, rfl⟩, rfl⟩
  · rw [if_neg htk]
    by_cases hmid : meeting_id = ""
    · rw [if_pos hmid]
      exact ⟨⟨_, rfl⟩, rfl⟩
    · rw [if_neg hmid]
      have hnone : (if force_reprocess then none
          else storeLookup store ⟨year, month, meeting_id⟩) = none := by
        cases force_reprocess with
        | true => rfl
        | false => simpa using hfast rfl
      obtain ⟨e, he⟩ := processCase_max_tokens decode transcript meeting_id resp
        analytics htrunc
      simp only [hnone, he]
      exact ⟨⟨e, rfl⟩, trivial⟩

/-- Witness for C5: a concrete truncated response against an empty store. -/
theorem truncated_response_not_persisted_witness :
    (∃ e, (case_check_handler [] 2025 1 "t" []
        (fun _ => .error "unused")
        ⟨"max_tokens", some ⟨some (.asList []), none⟩⟩
        "tk" "m1" false).result = .error e) ∧
    (case_check_handler [] 2025 1 "t" [] (fun _ => .error "unused")
        ⟨"max_tokens", some ⟨some (.asList []), none⟩⟩
        "tk" "m1" false).writes = [] :=
  truncated_response_not_persisted [] 2025 1 "t" [] (fun _ => .error "unused")
    ⟨"max_tokens", some ⟨some (.asList []), none⟩⟩ "tk" "m1" false
    (fun _ => by decide) (by decide)

/-- Spec side of C1: the ids of every result whose status is `"Fail"`, in
result order (a failing result without an id contributes `""`). -/
def specFailedIds (rs : List RawElem) : List String :=
  rs.filterMap fun r =>
    match r with
    | .rdict d => if d.status? = some "Fail" then some (d.id?.getD "") else none
    | .rother => none

/-- Spec side of C1: the failed ids whose checklist item has severity
`"high"` (ids not in the static checklist default to severity low, i.e. are
not flagged). -/
def specHighFlags (rs : List RawElem) : List String :=
  (specFailedIds rs).filter fun i => severity_by_id i = some "high"

theorem foldl_collectStep (rs : List RawElem) :
    ∀ f h : List String,
    rs.foldl collectStep (f, h) = (f ++ specFailedIds rs, h ++ specHighFlags rs) := by
  induction rs with
  | nil => intro f h; simp [specFailedIds, specHighFlags]
  | cons r rs ih =>
    intro f h
    cases r with
    | rother =>
      simp only [List.foldl_cons, collectStep, ih]
      simp [specFailedIds, specHighFlags]
    | rdict d =>
      by_cases hst : d.status? = some "Fail"
      · by_cases hsev : severity_by_id (d.id?.getD "") = some "high"
        · simp only [List.foldl_cons, collectStep, if_pos hst, if_pos hsev, ih]
          simp [specFailedIds, specHighFlags, hst, hsev]
        · simp only [List.foldl_cons, collectStep, if_pos hst, if_neg hsev, ih]
          simp [specFailedIds, specHighFlags, hst, hsev]
      · simp only [List.foldl_cons, collectStep, if_neg hst, ih]
        simp [specFailedIds, specHighFlags, hst]

theorem collectFailures_eq (rs : List RawElem) :
    collectFailures rs = (specFailedIds rs, specHighFlags rs) := by
  simpa using foldl_collectStep rs [] []

theorem pyRound1_zero : pyRound1 0 = 0 := by
  norm_num [pyRound1, roundHalfEven]

/-- C1: when the classifier omits a non-empty `overall` and `results` is a
list, the fallback `overall` is computed as: `failed_ids` = the ids of every
result whose status is `"Fail"` in result order; `high_severity_flags` =
those failed ids whose checklist item has severity `"high"` (unknown ids
default to low); `pass_rate = round(100 * (total_checks - len(failed_ids)) /
total_checks, 1)` for `total_checks > 0` and `0.0` otherwise; and
`has_high_severity_failures` iff `high_severity_flags` is non-empty. -/
theorem overall_fallback_matches_spec (rs : List RawElem) :
    computeOverall rs =
      { pass_rate? := some (if 0 < rs.length then
          pyRound1 (100 * ((rs.length : ℚ) - ((specFailedIds rs).length : ℚ)) /
            (rs.length : ℚ)) else 0),
        failed_ids? := some (specFailedIds rs),
        high_severity_flags? := some (specHighFlags rs),
        has_high_severity_failures? := some (decide (specHighFlags rs ≠ [])) } := by
  unfold computeOverall
  rw [collectFailures_eq]
  by_cases hn : 0 < rs.length
  · simp only [hn, if_pos hn]
    congr 1
    · congr 1
      congr 1
      push_cast
      have : (rs.length : ℚ) ≠ 0 := by positivity
      field_simp
      ring
    · congr 1
      rcases specHighFlags rs with _ | ⟨a, l⟩ <;> simp
  · simp only [if_neg hn]
    rw [pyRound1_zero]
    congr 1
    congr 1
    rcases specHighFlags rs with _ | ⟨a, l⟩ <;> simp

theorem foldl_finalizeStep (rs : List VResult) :
    ∀ acc : List VResult × Bool × Bool,
    rs.foldl finalizeStep acc =
      (acc.1 ++ rs.map (fun r => { r with
          evidence_quote? := some (r.evidence_quote?.getD ""),
          comment? := some (r.comment?.getD ""),
          confidence := max 0 (min 1 r.confidence) }),
       acc.2.1 || rs.any (fun r =>
         r.status == "Fail" && severity_by_id r.id == some "high"),
       acc.2.2 || rs.any (fun r =>
         r.id == "vulnerability_identified" &&
           (r.status == "Competent" || r.status == "Fail"))) := by
  induction rs with
  | nil => intro acc; simp
  | cons r rs ih =>
    intro acc
    simp only [List.foldl_cons, finalizeStep, ih]
    simp [Bool.or_assoc]

theorem finalizeLoop_spec (rs : List VResult) :
    finalizeLoop rs =
      (rs.map (fun r => { r with
          evidence_quote? := some (r.evidence_quote?.getD ""),
          comment? := some (r.comment?.getD ""),
          confidence := max 0 (min 1 r.confidence) }),
       rs.any (fun r => r.status == "Fail" && severity_by_id r.id == some "high"),
       rs.any (fun r => r.id == "vulnerability_identified" &&
         (r.status == "Competent" || r.status == "Fail"))) := by
  simpa using foldl_finalizeStep rs ([], false, false)

theorem processCase_ok_payload (decode : String → Except String (List RawElem))
    (transcript meeting_id : String) (resp : ClassifierResp)
    (analytics : CallAnalytics) (d : CaseData) (hv : Bool) (pr : ℚ)
    (h : processCase decode transcript meeting_id resp analytics = .ok (d, hv, pr)) :
    ∃ p : CasePayload, d.payload = (finalizeData meeting_id p).1 ∧
      hv = (finalizeData meeting_id p).2 := by
  unfold processCase at h
  split at h
  · exact absurd h (by simp)
  · split at h
    · exact absurd h (by simp)
    · simp only [] at h
      split at h
      · exact absurd h (by simp)
      · split at h
        · exact absurd h (by simp)
        · split at h
          · exact absurd h (by simp)
          · rw [Except.ok.injEq] at h
            injection h with h1 h23
            injection h23 with h2 h3
            exact ⟨_, (congrArg CaseData.payload h1).symm, h2.symm⟩

theorem finalizeData_overall_flag (meeting_id : String) (p : CasePayload) :
    (finalizeData meeting_id p).1.overall.has_high_severity_failures? =
      some (p.results.any fun r =>
        r.status == "Fail" && severity_by_id r.id == some "high") := by
  simp [finalizeData, finalizeLoop_spec]

theorem finalizeData_results (meeting_id : String) (p : CasePayload) :
    (finalizeData meeting_id p).1.results =
      p.results.map (fun r => { r with
        evidence_quote? := some (r.evidence_quote?.getD ""),
        comment? := some (r.comment?.getD ""),
        confidence := max 0 (min 1 r.confidence) }) := by
  simp [finalizeData, finalizeLoop_spec]

theorem finalizeData_vuln (meeting_id : String) (p : CasePayload) :
    (finalizeData meeting_id p).2 =
      p.results.any (fun r => r.id == "vulnerability_identified" &&
        (r.status == "Competent" || r.status == "Fail")) := by
  simp [finalizeData, finalizeLoop_spec]

/-- C2: for every validated payload the handler persists, the final
`overall.has_high_severity_failures` is recomputed unconditionally from the
results — it equals the indicator that some result has status `"Fail"` whose
id maps to a static checklist item of severity `"high"`, whatever the
classifier supplied. -/
theorem high_severity_flag_recomputed
    (decode : String → Except String (List RawElem))
    (transcript meeting_id : String) (resp : ClassifierResp)
    (analytics : CallAnalytics) (d : CaseData) (hv : Bool) (pr : ℚ)
    (h : processCase decode transcript meeting_id resp analytics = .ok (d, hv, pr)) :
    d.payload.overall.has_high_severity_failures? =
      some (d.payload.results.any fun r =>
        r.status == "Fail" && severity_by_id r.id == some "high") ∧
    (d.payload.overall.has_high_severity_failures? = some true ↔
      ∃ r ∈ d.payload.results,
        r.status = "Fail" ∧ severity_by_id r.id = some "high") := by
  obtain ⟨p, hdp, -⟩ :=
    processCase_ok_payload decode transcript meeting_id resp analytics d hv pr h
  have h1 : d.payload.overall.has_high_severity_failures? =
      some (d.payload.results.any fun r =>
        r.status == "Fail" && severity_by_id r.id == some "high") := by
    rw [hdp, finalizeData_overall_flag, finalizeData_results, List.any_map]
    rfl
  refine ⟨h1, ?_⟩
  rw [h1, Option.some_inj]
  simp [List.any_eq_true]

/-- Witness payload for the C2/C3/C6 witnesses: one high-severity failing
check and one identified vulnerability. -/
def wResp : ClassifierResp :=
  ⟨"tool_use", some ⟨some (.asList
    [.rdict ⟨some "call_recording_confirmed", some "Fail", some 1, none,
       some "Hello there", none⟩,
     .rdict ⟨some "vulnerability_identified", some "Competent", some (1/2), none,
       none, some "ok"⟩]), none⟩⟩

def wDecode : String → Except String (List RawElem) := fun _ => .error "unused"

def wTranscript : String := "Jane: Hello there"

def emptyPayload : CasePayload :=
  ⟨"", "", "", "", "", "", [], ⟨none, none, none, none⟩⟩

def wPc : Except String (CaseData × Bool × ℚ) :=
  processCase wDecode wTranscript "m1" wResp []

def wData : CaseData := ((wPc.toOption).map (·.1)).getD ⟨emptyPayload, []⟩

def wHv : Bool := ((wPc.toOption).map (·.2.1)).getD false

def wPr : ℚ := ((wPc.toOption).map (·.2.2)).getD 0

/-- Witness for C2: the concrete persisted payload of `wResp`. -/
theorem high_severity_flag_recomputed_witness :
    wData.payload.overall.has_high_severity_failures? =
      some (wData.payload.results.any fun r =>
        r.status == "Fail" && severity_by_id r.id == some "high") ∧
    (wData.payload.overall.has_high_severity_failures? = some true ↔
      ∃ r ∈ wData.payload.results,
        r.status = "Fail" ∧ severity_by_id r.id = some "high") :=
  high_severity_flag_recomputed wDecode wTranscript "m1" wResp [] wData wHv wPr
    (by with_unfolding_all decide)

theorem case_check_handler_eq_fast (store : CaseStore) (year month : Nat)
    (transcript : String) (analytics : CallAnalytics)
    (decode : String → Except String (List RawElem)) (resp : ClassifierResp)
    (transcript_key meeting_id : String) (force_reprocess : Bool)
    (cd : CaseData) (htk : ¬transcript_key = "") (hmid : ¬meeting_id = "")
    (hl : (if force_reprocess then none
        else storeLookup store ⟨year, month, meeting_id⟩) = some cd) :
    case_check_handler store year month transcript analytics decode resp
        transcript_key meeting_id force_reprocess =
      ⟨.ok { caseData := cd, caseKey := ⟨year, month, meeting_id⟩,
             passRate := cd.payload.overall.pass_rate?.getD 0,
             hasVulnerability? := none }, [], false⟩ := by
  unfold case_check_handler
  rw [if_neg htk, if_neg hmid]
  simp only [hl]

theorem case_check_handler_eq_slow_err (store : CaseStore) (year month : Nat)
    (transcript : String) (analytics : CallAnalytics)
    (decode : String → Except String (List RawElem)) (resp : ClassifierResp)
    (transcript_key meeting_id : String) (force_reprocess : Bool) (e : String)
    (htk : ¬transcript_key = "") (hmid : ¬meeting_id = "")
    (hl : (if force_reprocess then none
        else storeLookup store ⟨year, month, meeting_id⟩) = none)
    (hpc : processCase decode transcript meeting_id resp analytics = .error e) :
    case_check_handler store year month transcript analytics decode resp
        transcript_key meeting_id force_reprocess = ⟨.error e, [], true⟩ := by
  unfold case_check_handler
  rw [if_neg htk, if_neg hmid]
  simp only [hl, hpc]

theorem case_check_handler_eq_slow_ok (store : CaseStore) (year month : Nat)
    (transcript : String) (analytics : CallAnalytics)
    (decode : String → Except String (List RawElem)) (resp : ClassifierResp)
    (transcript_key meeting_id : String) (force_reprocess : Bool)
    (data : CaseData) (hv : Bool) (pr : ℚ)
    (htk : ¬transcript_key = "") (hmid : ¬meeting_id = "")
    (hl : (if force_reprocess then none
        else storeLookup store ⟨year, month, meeting_id⟩) = none)
    (hpc : processCase decode transcript meeting_id resp analytics =
      .ok (data, hv, pr)) :
    case_check_handler store year month transcript analytics decode resp
        transcript_key meeting_id force_reprocess =
      ⟨.ok { caseData := data, caseKey := ⟨year, month, meeting_id⟩,
             passRate := pr, hasVulnerability? := some hv },
       [.putCaseJson ⟨year, month, meeting_id⟩ data,
        .putAssessmentRecords meeting_id data], true⟩ := by
  unfold case_check_handler
  rw [if_neg htk, if_neg hmid]
  simp only [hl, hpc]

/-- C3: the `hasVulnerability` flag returned by the case-check handler is
true iff some result has id `"vulnerability_identified"` and status
`"Competent"` or `"Fail"`; any other status for that id — including
`"NotApplicable"`, `"Inconclusive"` and `"CompetentWithDevelopment"` —
leaves the flag false.  (The idempotent fast path returns no flag, hence the
`some hv` hypothesis.) -/
theorem has_vulnerability_iff (store : CaseStore) (year month : Nat)
    (transcript : String) (analytics : CallAnalytics)
    (decode : String → Except String (List RawElem)) (resp : ClassifierResp)
    (transcript_key meeting_id : String) (force_reprocess : Bool)
    (out : HandlerOutput) (w : List PersistAction) (inv : Bool) (hv : Bool)
    (hh : case_check_handler store year month transcript analytics decode resp
        transcript_key meeting_id force_reprocess = ⟨.ok out, w, inv⟩)
    (hsome : out.hasVulnerability? = some hv) :
    hv = true ↔ ∃ r ∈ out.caseData.payload.results,
      r.id = "vulnerability_identified" ∧
        (r.status = "Competent" ∨ r.status = "Fail") := by
  by_cases htk : transcript_key = ""
  · rw [show case_check_handler store year month transcript analytics decode
        resp transcript_key meeting_id force_reprocess =
        ⟨.error "redactedTranscriptKey is required", [], false⟩ by
      unfold case_check_handler; rw [if_pos htk]] at hh
    exact absurd (congrArg HandlerResult.result hh) (by simp)
  by_cases hmid : meeting_id = ""
  · rw [show case_check_handler store year month transcript analytics decode
        resp transcript_key meeting_id force_reprocess =
        ⟨.error "meetingId is required", [], false⟩ by
      unfold case_check_handler; rw [if_neg htk, if_pos hmid]] at hh
    exact absurd (congrArg HandlerResult.result hh) (by simp)
  cases hl : (if force_reprocess then none
      else storeLookup store ⟨year, month, meeting_id⟩) with
  | some cd =>
    rw [case_check_handler_eq_fast store year month transcript analytics decode
      resp transcript_key meeting_id force_reprocess cd htk hmid hl] at hh
    have hres := congrArg HandlerResult.result hh
    rw [Except.ok.injEq] at hres
    rw [← hres] at hsome
    simp at hsome
  | none =>
    cases hpc : processCase decode transcript meeting_id resp analytics with
    | error e =>
      rw [case_check_handler_eq_slow_err store year month transcript analytics
        decode resp transcript_key meeting_id force_reprocess e htk hmid hl
        hpc] at hh
      exact absurd (congrArg HandlerResult.result hh) (by simp)
    | ok t =>
      obtain ⟨data, hv2, pr⟩ := t
      rw [case_check_handler_eq_slow_ok store year month transcript analytics
        decode resp transcript_key meeting_id force_reprocess data hv2 pr htk
        hmid hl hpc] at hh
      have hres := congrArg HandlerResult.result hh
      rw [Except.ok.injEq] at hres
      rw [← hres] at hsome ⊢
      have hhv : hv2 = hv := by simpa using hsome
      obtain ⟨p, hdp, hvp⟩ := processCase_ok_payload decode transcript
        meeting_id resp analytics data hv2 pr hpc
      simp only [← hhv, hvp]
      show (finalizeData meeting_id p).2 = true ↔
        ∃ r ∈ data.payload.results, _
      rw [finalizeData_vuln, hdp, finalizeData_results]
      simp [List.any_eq_true]

deriving instance DecidableEq for PersistAction

deriving instance DecidableEq for HandlerOutput

deriving instance DecidableEq for HandlerResult

def wHr : HandlerResult :=
  case_check_handler [] 2025 1 wTranscript [] wDecode wResp "tk" "m1" false

def wOut : HandlerOutput :=
  match wHr.result with
  | .ok o => o
  | .error _ => ⟨⟨emptyPayload, []⟩, ⟨0, 0, ""⟩, 0, none⟩

/-- Witness for C3: the concrete handler run on `wResp`, whose
`vulnerability_identified` result has status `"Competent"`. -/
theorem has_vulnerability_iff_witness :
    wOut.hasVulnerability?.getD false = true ↔
      ∃ r ∈ wOut.caseData.payload.results,
        r.id = "vulnerability_identified" ∧
          (r.status = "Competent" ∨ r.status = "Fail") :=
  has_vulnerability_iff [] 2025 1 wTranscript [] wDecode wResp "tk" "m1" false
    wOut wHr.writes wHr.invokedClassifier (wOut.hasVulnerability?.getD false)
    (by with_unfolding_all decide) (by with_unfolding_all decide)

/-- Counterexample to C7 as stated: `parse_timestamp("a:b")` splits into two
colon-separated parts, so the code runs `int("a")`, which raises
`ValueError` — the function does not return `0.0` on every malformed input. -/
theorem parse_timestamp_raises_on_two_part_nonnumeric :
    parse_timestamp "a:b" = .error "invalid literal for int" := by
  with_unfolding_all decide

/-- C7 (amended): well-formed `"HH:MM:SS.mmm"` / `"MM:SS.mmm"` inputs return
total seconds, and an input that does not split into exactly 2 or 3
colon-separated parts returns `0.0`; but a 2- or 3-part input with
non-numeric components raises `ValueError` (see the counterexample), so
`parse_timestamp` is not total on arbitrary strings. -/
theorem parse_timestamp_amended :
    parse_timestamp "00:01:05.250" = .ok (65.25 : ℚ) ∧
    parse_timestamp "1:05.250" = .ok (65.25 : ℚ) ∧
    parse_timestamp "garbage" = .ok 0 ∧
    (∀ ts : String,
      (splitOnChar ':' (pyStrip (pyReplaceChar ',' '.' ts.toList))).length ≠ 2 →
      (splitOnChar ':' (pyStrip (pyReplaceChar ',' '.' ts.toList))).length ≠ 3 →
      parse_timestamp ts = .ok 0) := by
  refine ⟨by with_unfolding_all decide, by with_unfolding_all decide,
    by with_unfolding_all decide, ?_⟩
  intro ts h2 h3
  show parse_timestamp_chars ts.toList = .ok 0
  unfold parse_timestamp_chars
  rcases hparts : splitOnChar ':' (pyStrip (pyReplaceChar ',' '.' ts.toList))
    with _ | ⟨a, _ | ⟨b, _ | ⟨c, _ | ⟨d, l⟩⟩⟩⟩
  · simp only [hparts]
  · simp only [hparts]
  · have hlen : (splitOnChar ':'
        (pyStrip (pyReplaceChar ',' '.' ts.toList))).length = 2 := by
      rw [hparts]
      rfl
    exact absurd hlen h2
  · have hlen : (splitOnChar ':'
        (pyStrip (pyReplaceChar ',' '.' ts.toList))).length = 3 := by
      rw [hparts]
      rfl
    exact absurd hlen h3
  · simp only [hparts]

/-- Witness for the amended C7: a four-part timestamp falls through to the
`0.0` fallback. -/
theorem parse_timestamp_amended_witness :
    parse_timestamp "12:34:56:78" = .ok 0 :=
  parse_timestamp_amended.2.2.2 "12:34:56:78" (by with_unfolding_all decide)
    (by with_unfolding_all decide)

/-- Spec side of C9: a segment is attributed to COACH iff its text matches
the `"Name: remainder"` shape (name of 2–50 non-colon characters) and the
lower-cased coach name and lower-cased detected name contain one another. -/
def specCoachSeg (coach_lower : List Char) (seg : Segment) : Bool :=
  match matchSpeaker seg.text.toList with
  | some (g1, _) =>
    isSubstr coach_lower (toLowerList (pyStrip g1)) ||
      isSubstr (toLowerList (pyStrip g1)) coach_lower
  | none => false

/-- Spec side of C9: the word count a segment contributes — the remainder's
words for a `"Name: remainder"` segment, the whole text's words otherwise. -/
def specSegWords (seg : Segment) : Nat :=
  match matchSpeaker seg.text.toList with
  | some (_, g2) => pyWordCount (pyStrip g2)
  | none => pyWordCount seg.text.toList

/-- Spec side of C9: per-speaker totals as sums over the segment list —
COACH gets exactly the matching segments' durations and word counts, CLIENT
all the others (including segments that do not match the name shape). -/
def specAttribution (segs : List Segment) (coach_name : String) : SpeakerTiming :=
  let cl := pyStrip (toLowerList coach_name.toList)
  { coach_duration_sec :=
      ((segs.filter fun s => specCoachSeg cl s).map fun s =>
        s.end_sec - s.start_sec).sum,
    client_duration_sec :=
      ((segs.filter fun s => !specCoachSeg cl s).map fun s =>
        s.end_sec - s.start_sec).sum,
    coach_words := ((segs.filter fun s => specCoachSeg cl s).map specSegWords).sum,
    client_words :=
      ((segs.filter fun s => !specCoachSeg cl s).map specSegWords).sum }

theorem foldl_segAttrib (cl : List Char) (segs : List Segment) :
    ∀ acc : SpeakerTiming,
    segs.foldl (fun a s => segAttrib cl s a) acc =
      { coach_duration_sec := acc.coach_duration_sec +
          ((segs.filter fun s => specCoachSeg cl s).map fun s =>
            s.end_sec - s.start_sec).sum,
        client_duration_sec := acc.client_duration_sec +
          ((segs.filter fun s => !specCoachSeg cl s).map fun s =>
            s.end_sec - s.start_sec).sum,
        coach_words := acc.coach_words +
          ((segs.filter fun s => specCoachSeg cl s).map specSegWords).sum,
        client_words := acc.client_words +
          ((segs.filter fun s => !specCoachSeg cl s).map specSegWords).sum } := by
  induction segs with
  | nil => intro acc; simp
  | cons s segs ih =>
    intro acc
    simp only [List.foldl_cons, ih]
    rcases hm : matchSpeaker s.text.toList with - | ⟨g1, g2⟩
    · simp only [segAttrib, hm, specCoachSeg, specSegWords, List.filter_cons,
        Bool.not_false, if_pos, if_neg, Bool.false_eq_true, ite_false,
        ite_true, List.map_cons, List.sum_cons]
      refine SpeakerTiming.mk.injEq .. ▸ ⟨by ring, by ring, by omega, by omega⟩
    · by_cases hc : (isSubstr cl (toLowerList (pyStrip g1)) ||
          isSubstr (toLowerList (pyStrip g1)) cl) = true
      · simp only [segAttrib, hm, specCoachSeg, specSegWords, List.filter_cons,
          hc, Bool.not_true, Bool.false_eq_true, ite_false, ite_true,
          List.map_cons, List.sum_cons]
        refine SpeakerTiming.mk.injEq .. ▸ ⟨by ring, by ring, by omega, by omega⟩
      · rw [Bool.not_eq_true] at hc
        simp only [segAttrib, hm, specCoachSeg, specSegWords, List.filter_cons,
          hc, Bool.not_false, Bool.false_eq_true, ite_false, ite_true,
          List.map_cons, List.sum_cons]
        refine SpeakerTiming.mk.injEq .. ▸ ⟨by ring, by ring, by omega, by omega⟩

/-- C9: with a non-empty coach name, `parse_vtt_with_speakers` computes
exactly the spec-side attribution — each parsed segment's duration and word
count go to COACH iff the name-shape match and bidirectional lower-cased
substring containment hold, otherwise to CLIENT (non-matching shapes
default to CLIENT) — and with an empty coach name the result is all zeros. -/
theorem speaker_attribution_matches_spec :
    (∀ vtt_content coach_name : String, coach_name ≠ "" →
      parse_vtt_with_speakers vtt_content coach_name =
        specAttribution (parse_vtt_segments vtt_content) coach_name) ∧
    (∀ vtt_content : String, parse_vtt_with_speakers vtt_content "" = zeroTiming) := by
  constructor
  · intro vtt coach hc
    by_cases hv : vtt = ""
    · subst hv
      simp [parse_vtt_with_speakers, parse_vtt_segments, specAttribution,
        zeroTiming]
    · unfold parse_vtt_with_speakers
      rw [if_neg (by simp [hv, hc])]
      rw [foldl_segAttrib]
      simp [specAttribution, zeroTiming]
  · intro vtt
    simp [parse_vtt_with_speakers]

def c9vtt : String :=
  "WEBVTT\n\n1\n00:00:01.000 --> 00:00:03.500\nJane: Hello there\n\n2\n00:00:04.000 --> 00:00:06.000\nUnknown Speaker: Hi\n"

/-- Witness for C9: "Jane: Hello there" is attributed to the coach
"Jane Doe", "Unknown Speaker: Hi" to the client. -/
theorem speaker_attribution_matches_spec_witness :
    parse_vtt_with_speakers c9vtt "Jane Doe" =
      specAttribution (parse_vtt_segments c9vtt) "Jane Doe" ∧
    parse_vtt_with_speakers c9vtt "Jane Doe" = ⟨5/2, 2, 2, 1⟩ :=
  ⟨speaker_attribution_matches_spec.1 c9vtt "Jane Doe" (by decide),
   by with_unfolding_all decide⟩

/-- C10: the cue-recognition pattern requires an hours field — a line that
starts with an `MM:SS.mmm`-shaped timestamp (1–2 minute digits, exactly two
second digits, then the fractional separator where the pattern demands a
second colon) is never recognized as a timestamp line, for any trailing
text; yet `parse_timestamp` itself accepts the `MM:SS.mmm` form, and a
caption whose cue lines are written that way parses to no segments at all. -/
theorem mm_ss_cue_lines_not_recognized :
    (∀ (m s rest : List Char) (sep : Char),
      m ≠ [] → m.length ≤ 2 → m.all Char.isDigit →
      s.length = 2 → s.all Char.isDigit →
      (sep = '.' ∨ sep = ',') →
      matchTsLine (m ++ ':' :: s ++ sep :: rest) = none) ∧
    parse_timestamp "1:05.250" = .ok (65.25 : ℚ) ∧
    parse_vtt_segments "1:05.250 --> 1:10.000\nHello world\n" = [] := by
  refine ⟨?_, by with_unfolding_all decide, by with_unfolding_all decide⟩
  intro m s rest sep hm0 hm2 hmd hs2 hsd hsep
  have hsep' : ¬ sep = ':' := by
    rcases hsep with h | h <;> subst h <;> decide
  have hcd : (':' : Char).isDigit = false := by decide
  rcases s with - | ⟨s1, s⟩
  · simp at hs2
  rcases s with - | ⟨s2, s⟩
  · simp at hs2
  rcases s with - | ⟨s3, s⟩
  swap
  · simp at hs2
  have hsd' : s1.isDigit = true ∧ s2.isDigit = true := by simpa using hsd
  have hsd1 := hsd'.1
  have hsd2 := hsd'.2
  rcases m with - | ⟨d1, m⟩
  · exact absurd rfl hm0
  rcases m with - | ⟨d2, m⟩
  · have hd1 : d1.isDigit = true := by simpa using hmd
    simp [matchTsLine, matchTs, matchHh, match2d, hd1, hsd1, hsd2, hcd, hsep']
  rcases m with - | ⟨d3, m⟩
  · have hmd' : d1.isDigit = true ∧ d2.isDigit = true := by simpa using hmd
    have hd1 := hmd'.1
    have hd2 := hmd'.2
    simp [matchTsLine, matchTs, matchHh, match2d, hd1, hd2, hsd1, hsd2, hcd,
      hsep']
  · simp at hm2

/-- Witness for C10: the concrete cue line `"1:05.250 --> 1:10.000"`. -/
theorem mm_ss_cue_lines_not_recognized_witness :
    matchTsLine (['1'] ++ ':' :: ['0', '5'] ++ '.' :: "250 --> 1:10.000".toList) =
      none :=
  mm_ss_cue_lines_not_recognized.1 ['1'] ['0', '5'] "250 --> 1:10.000".toList '.'
    (by decide) (by decide) (by decide) (by decide) (by decide) (Or.inl rfl)

/-! ## C8 — well-formed cue blocks -/

/-- One cue block of a caption file: a timestamp-range header line followed
by its text lines (the assembled file separates blocks with blank lines). -/
structure Cue where
  header : List Char
  texts : List (List Char)

/-- The lines a cue block contributes to the caption file. -/
def cueLines (c : Cue) : List (List Char) := c.header :: c.texts ++ [[]]

/-- The line sequence of a caption file made of the given cue blocks. -/
def assembleLines (cues : List Cue) : List (List Char) :=
  (cues.map cueLines).flatten

/-- The caption file itself: the lines joined with `'\n'`. -/
def assembleVtt (cues : List Cue) : String :=
  (joinChar '\n' (assembleLines cues)).asString

/-- The two timestamp groups of a cue's header line. -/
def headerGroups (c : Cue) : List Char × List Char :=
  (matchTsLine (pyStrip c.header)).getD ([], [])

/-- The segment a well-formed cue block with text parses to. -/
def toSegment (c : Cue) : Segment :=
  ⟨tsQ (headerGroups c).1, tsQ (headerGroups c).2,
   (joinSpace (c.texts.map pyStrip)).asString⟩

/-- A valid cue text line: single-line, not blank after stripping, not a
timestamp line, not a numeric cue-index line. -/
def goodTextLine (t : List Char) : Prop :=
  '\n' ∉ t ∧ '\r' ∉ t ∧ pyStrip t ≠ [] ∧
    matchTsLine (pyStrip t) = none ∧ pyIsDigit (pyStrip t) = false

/-- A well-formed cue block: a single-line header recognized by the
timestamp-range pattern, with `end_sec ≥ start_sec` (WebVTT requires cue end
times not to precede start times), and valid text lines. -/
def WellFormedCue (c : Cue) : Prop :=
  '\n' ∉ c.header ∧ '\r' ∉ c.header ∧
    (matchTsLine (pyStrip c.header)).isSome ∧
    tsQ (headerGroups c).1 ≤ tsQ (headerGroups c).2 ∧
    ∀ t ∈ c.texts, goodTextLine t

instance (t : List Char) : Decidable (goodTextLine t) := by
  unfold goodTextLine
  infer_instance

instance (c : Cue) : Decidable (WellFormedCue c) := by
  unfold WellFormedCue
  infer_instance

theorem splitOnChar_ne_nil (sep : Char) : ∀ l : List Char, splitOnChar sep l ≠ [] := by
  intro l
  cases l with
  | nil => simp [splitOnChar]
  | cons c rest =>
    simp only [splitOnChar]
    cases hs : splitOnChar sep rest with
    | nil => simp
    | cons h t =>
      dsimp only
      split <;> simp

theorem splitOnChar_append_cons (sep : Char) :
    ∀ a rest : List Char, sep ∉ a →
    splitOnChar sep (a ++ sep :: rest) = a :: splitOnChar sep rest := by
  intro a
  induction a with
  | nil =>
    intro rest _
    simp only [List.nil_append, splitOnChar]
    rcases hs : splitOnChar sep rest with - | ⟨h, t⟩
    · exact absurd hs (splitOnChar_ne_nil sep rest)
    · simp
  | cons a0 a ih =>
    intro rest hmem
    rw [List.mem_cons, not_or] at hmem
    obtain ⟨h0, h1⟩ := hmem
    simp only [List.cons_append, splitOnChar, List.append_eq]
    rw [ih rest h1]
    simp [Ne.symm h0]

theorem splitOnChar_no_sep (sep : Char) :
    ∀ a : List Char, sep ∉ a → splitOnChar sep a = [a] := by
  intro a
  induction a with
  | nil => intro; rfl
  | cons a0 a ih =>
    intro hmem
    rw [List.mem_cons, not_or] at hmem
    obtain ⟨h0, h1⟩ := hmem
    simp only [splitOnChar, ih h1]
    simp [Ne.symm h0]

theorem splitOnChar_joinChar (sep : Char) :
    ∀ ls : List (List Char), ls ≠ [] → (∀ l ∈ ls, sep ∉ l) →
    splitOnChar sep (joinChar sep ls) = ls := by
  intro ls
  induction ls with
  | nil => intro h; exact absurd rfl h
  | cons l ls ih =>
    intro _ hmem
    cases ls with
    | nil => exact splitOnChar_no_sep sep l (hmem l (by simp))
    | cons l2 ls2 =>
      show splitOnChar sep (l ++ sep :: joinChar sep (l2 :: ls2)) = _
      rw [splitOnChar_append_cons sep l _ (hmem l (by simp))]
      rw [ih (by simp) fun x hx => hmem x (List.mem_cons_of_mem _ hx)]

theorem mem_joinChar (sep : Char) (c : Char) :
    ∀ ls : List (List Char), c ∈ joinChar sep ls →
    c = sep ∨ ∃ l ∈ ls, c ∈ l := by
  intro ls
  induction ls with
  | nil => intro h; exact absurd h (by simp [joinChar])
  | cons l ls ih =>
    intro h
    cases ls with
    | nil => exact Or.inr ⟨l, by simp, h⟩
    | cons l2 ls2 =>
      rw [show joinChar sep (l :: l2 :: ls2) = l ++ sep :: joinChar sep (l2 :: ls2)
        from rfl, List.mem_append] at h
      rcases h with h | h
      · exact Or.inr ⟨l, by simp, h⟩
      · rw [List.mem_cons] at h
        rcases h with h | h
        · exact Or.inl h
        · rcases ih h with h | ⟨x, hx, hcx⟩
          · exact Or.inl h
          · exact Or.inr ⟨x, List.mem_cons_of_mem _ hx, hcx⟩

theorem replaceCRLF_no_cr : ∀ l : List Char, '\r' ∉ l → replaceCRLF l = l := by
  intro l
  induction l with
  | nil => intro; rfl
  | cons c l ih =>
    intro h
    rw [List.mem_cons, not_or] at h
    obtain ⟨hc, hl⟩ := h
    cases l with
    | nil => rfl
    | cons c2 l2 =>
      simp only [replaceCRLF]
      rw [if_neg fun e => hc e.symm, ih hl]

theorem matchTsLine_nil : matchTsLine [] = none := rfl

theorem collectText_good :
    ∀ texts : List (List Char),
    (∀ t ∈ texts, pyStrip t ≠ [] ∧ matchTsLine (pyStrip t) = none ∧
      pyIsDigit (pyStrip t) = false) →
    ∀ rest : List (List Char),
    collectText (texts ++ [] :: rest) = (texts.map pyStrip, [] :: rest) := by
  intro texts
  induction texts with
  | nil => intro _ rest; rfl
  | cons t ts ih =>
    intro h rest
    obtain ⟨h1, h2, h3⟩ := h t (by simp)
    have hrec := ih (fun x hx => h x (List.mem_cons_of_mem _ hx)) rest
    simp only [List.cons_append, collectText]
    rw [if_neg (by simp [List.isEmpty_iff, h1, h2, h3])]
    simp [hrec]

theorem scan_assembled :
    ∀ cues : List Cue, (∀ c ∈ cues, WellFormedCue c) →
    scanLines (assembleLines cues) =
      (cues.filter fun c => !c.texts.isEmpty).map toSegment := by
  intro cues
  induction cues with
  | nil => intro _; rfl
  | cons c cues ih =>
    intro h
    obtain ⟨-, -, hsome, -, htexts⟩ := h c (by simp)
    have hcs : ∀ x ∈ cues, WellFormedCue x :=
      fun x hx => h x (List.mem_cons_of_mem _ hx)
    obtain ⟨g1, g2, hm⟩ : ∃ g1 g2,
        matchTsLine (pyStrip c.header) = some (g1, g2) := by
      rcases hx : matchTsLine (pyStrip c.header) with - | ⟨g1, g2⟩
      · rw [hx] at hsome; exact absurd hsome (by simp)
      · exact ⟨g1, g2, rfl⟩
    have hassm : assembleLines (c :: cues) =
        c.header :: (c.texts ++ [] :: assembleLines cues) := by
      simp [assembleLines, cueLines]
    rw [hassm, scanLines_cons_ts hm,
      collectText_good c.texts (fun t ht => (htexts t ht).2.2) (assembleLines cues)]
    have hblank : scanLines ([] :: assembleLines cues) =
        scanLines (assembleLines cues) :=
      scanLines_cons_notts (by rw [pyStrip_nil, matchTsLine_nil])
    simp only [hblank, ih hcs]
    by_cases ht : c.texts.isEmpty
    · rw [List.isEmpty_iff] at ht
      simp [ht, List.filter_cons]
    · have hne : c.texts ≠ [] := by
        simpa [List.isEmpty_iff] using ht
      have hmapne : (List.map pyStrip c.texts).isEmpty = false := by
        simp [List.isEmpty_iff, hne]
      have hfil : c.texts.isEmpty = false := by
        simp [List.isEmpty_iff, hne]
      simp only [hmapne, Bool.false_eq_true, ite_false, List.filter_cons,
        hfil, Bool.not_false, ite_true, List.map_cons, List.cons_append,
        List.nil_append]
      simp [toSegment, headerGroups, hm]

theorem pyReplaceChar_no_occur (a b : Char) :
    ∀ l : List Char, a ∉ l → pyReplaceChar a b l = l := by
  intro l
  induction l with
  | nil => intro; rfl
  | cons c l ih =>
    intro h
    rw [List.mem_cons, not_or] at h
    simp only [pyReplaceChar, List.map_cons]
    rw [if_neg fun e => h.1 e.symm]
    simpa [pyReplaceChar] using ih h.2

theorem toList_asString (l : List Char) : l.asString.toList = l := rfl

theorem asString_eq_empty_iff (l : List Char) : l.asString = "" ↔ l = [] := by
  constructor
  · intro h
    have := congrArg String.toList h
    simpa [toList_asString] using this
  · intro h
    rw [h]
    rfl

theorem joinChar_cons_ne_nil (sep : Char) (l : List Char)
    (ls : List (List Char)) (h : l ≠ []) : joinChar sep (l :: ls) ≠ [] := by
  cases ls with
  | nil => exact h
  | cons l2 ls2 =>
    show l ++ sep :: joinChar sep (l2 :: ls2) ≠ []
    simp

theorem mem_assembleLines (l : List Char) (cues : List Cue)
    (h : l ∈ assembleLines cues) :
    ∃ c ∈ cues, l = c.header ∨ l ∈ c.texts ∨ l = [] := by
  rw [assembleLines, List.mem_flatten] at h
  obtain ⟨ls, hls, hl⟩ := h
  rw [List.mem_map] at hls
  obtain ⟨c, hc, rfl⟩ := hls
  rw [cueLines] at hl
  simp only [List.mem_cons, List.mem_append, List.mem_singleton] at hl
  rcases hl with (hl | hl) | hl | hl
  · exact ⟨c, hc, Or.inl hl⟩
  · exact ⟨c, hc, Or.inr (Or.inl hl)⟩
  · exact ⟨c, hc, Or.inr (Or.inr hl)⟩
  · exact absurd hl (by simp)

/-- C8: for a caption file assembled from well-formed cue blocks, the parser
returns exactly the segments of the blocks that have text lines — so `N`
well-formed cue blocks with text yield exactly `N` segments, each with
`end_sec ≥ start_sec` and non-empty text, blocks without text lines produce
no segment, and empty input yields the empty list without raising. -/
theorem parse_vtt_segments_well_formed_cues (cues : List Cue)
    (hwf : ∀ c ∈ cues, WellFormedCue c) :
    parse_vtt_segments (assembleVtt cues) =
      (cues.filter fun c => !c.texts.isEmpty).map toSegment ∧
    ((∀ c ∈ cues, c.texts ≠ []) →
      (parse_vtt_segments (assembleVtt cues)).length = cues.length) ∧
    (∀ seg ∈ parse_vtt_segments (assembleVtt cues),
      seg.start_sec ≤ seg.end_sec ∧ seg.text ≠ "") ∧
    parse_vtt_segments "" = [] := by
  have hnl : ∀ l ∈ assembleLines cues, '\n' ∉ l := by
    intro l hl
    obtain ⟨c, hc, hcase⟩ := mem_assembleLines l cues hl
    obtain ⟨hh1, -, -, -, ht⟩ := hwf c hc
    rcases hcase with rfl | hl2 | rfl
    · exact hh1
    · exact (ht l hl2).1
    · simp
  have hcr : ∀ l ∈ assembleLines cues, '\r' ∉ l := by
    intro l hl
    obtain ⟨c, hc, hcase⟩ := mem_assembleLines l cues hl
    obtain ⟨-, hh2, -, -, ht⟩ := hwf c hc
    rcases hcase with rfl | hl2 | rfl
    · exact hh2
    · exact (ht l hl2).2.1
    · simp
  have hmain : parse_vtt_segments (assembleVtt cues) =
      (cues.filter fun c => !c.texts.isEmpty).map toSegment := by
    cases cues with
    | nil => rfl
    | cons c cs =>
      have hhead : c.header ≠ [] := by
        intro he
        obtain ⟨-, -, hsome, -, -⟩ := hwf c (by simp)
        rw [he, pyStrip_nil, matchTsLine_nil] at hsome
        exact absurd hsome (by simp)
      have hlines : assembleLines (c :: cs) =
          c.header :: (c.texts ++ [] :: assembleLines cs) := by
        simp [assembleLines, cueLines]
      have hjoin_ne : joinChar '\n' (assembleLines (c :: cs)) ≠ [] := by
        rw [hlines]
        exact joinChar_cons_ne_nil '\n' c.header _ hhead
      have hnocr : '\r' ∉ joinChar '\n' (assembleLines (c :: cs)) := by
        intro hmem
        rcases mem_joinChar '\n' '\r' _ hmem with h | ⟨l, hl, hcl⟩
        · exact absurd h (by decide)
        · exact absurd hcl (hcr l hl)
      unfold parse_vtt_segments
      rw [if_neg (show ¬assembleVtt (c :: cs) = "" by
        rw [assembleVtt]
        exact fun he => hjoin_ne ((asString_eq_empty_iff _).mp he))]
      rw [assembleVtt, toList_asString, normalizeNewlines,
        replaceCRLF_no_cr _ hnocr, pyReplaceChar_no_occur _ _ _ hnocr,
        splitOnChar_joinChar '\n' _ (by rw [hlines]; simp) hnl]
      exact scan_assembled (c :: cs) hwf
  refine ⟨hmain, ?_, ?_, rfl⟩
  · intro hall
    rw [hmain]
    have hfil : (cues.filter fun c => !c.texts.isEmpty) = cues :=
      List.filter_eq_self.mpr fun c hc => by
        simp [List.isEmpty_iff, hall c hc]
    rw [hfil, List.length_map]
  · intro seg hseg
    rw [hmain, List.mem_map] at hseg
    obtain ⟨c, hcf, rfl⟩ := hseg
    have hc : c ∈ cues := List.mem_of_mem_filter hcf
    obtain ⟨-, -, -, hle, ht⟩ := hwf c hc
    refine ⟨hle, ?_⟩
    have hne : c.texts ≠ [] := by
      have := List.of_mem_filter hcf
      simpa [List.isEmpty_iff] using this
    rcases hts : c.texts with - | ⟨t0, ts⟩
    · exact absurd hts hne
    · have h0 : pyStrip t0 ≠ [] := (ht t0 (by rw [hts]; simp)).2.2.1
      show (joinSpace (c.texts.map pyStrip)).asString ≠ ""
      rw [hts, List.map_cons]
      exact fun he =>
        joinChar_cons_ne_nil ' ' _ _ h0 ((asString_eq_empty_iff _).mp he)

def c8cues : List Cue := [
  ⟨"00:00:01.000 --> 00:00:03.500".toList, ["Jane: Hello there".toList]⟩,
  ⟨"00:00:04.000 --> 00:00:06.000".toList, ["Unknown Speaker: Hi".toList]⟩]

/-- Witness for C8: a concrete two-cue caption parses to exactly two
segments, the segments of its cue blocks. -/
theorem parse_vtt_segments_well_formed_cues_witness :
    (parse_vtt_segments (assembleVtt c8cues)).length = c8cues.length ∧
    parse_vtt_segments (assembleVtt c8cues) =
      (c8cues.filter fun c => !c.texts.isEmpty).map toSegment :=
  ⟨(parse_vtt_segments_well_formed_cues c8cues
      (by with_unfolding_all decide)).2.1 (by decide),
   (parse_vtt_segments_well_formed_cues c8cues
      (by with_unfolding_all decide)).1⟩

deriving instance DecidableEq for JobRecord

deriving instance DecidableEq for Store

theorem get_existing_completed (key : CaseKey) (pr : ℚ) (cases : CaseStore) :
    get_existing_case_check ⟨some ⟨"COMPLETED", some key, pr⟩, cases⟩ =
      some (key, pr, "COMPLETED") := by
  unfold get_existing_case_check
  dsimp only
  rw [if_pos (by decide)]
  rfl

theorem runPipeline_completed (key : CaseKey) (pr : ℚ) (cases : CaseStore)
    (env : PipelineEnv) (decode : String → Except String (List RawElem))
    (mid tk : String) :
    runPipeline ⟨some ⟨"COMPLETED", some key, pr⟩, cases⟩ env decode mid tk false =
      ({ caseData? := storeLookup cases key, passRate? := some pr,
         classified := false, errored := false },
       ⟨some ⟨"COMPLETED", some key, pr⟩, cases⟩) := by
  unfold runPipeline
  rw [if_neg (by simp : ¬(false = true)), get_existing_completed]

theorem runPipeline_fresh (env : PipelineEnv)
    (decode : String → Except String (List RawElem)) (mid tk : String)
    (hmid : ¬mid = "") (htk : ¬tk = "") :
    runPipeline ⟨none, []⟩ env decode mid tk false =
      match processCase decode env.transcript mid env.resp env.analytics with
      | .error _ =>
        ({ caseData? := none, passRate? := none, classified := true,
           errored := true }, ⟨some ⟨"QUEUED", none, 0⟩, []⟩)
      | .ok (d, _, pr) =>
        ({ caseData? := some d, passRate? := some pr, classified := true,
           errored := false },
         ⟨some ⟨"COMPLETED", some ⟨env.year, env.month, mid⟩, pr⟩,
          [(⟨env.year, env.month, mid⟩, d)]⟩) := by
  unfold runPipeline
  have hge : get_existing_case_check ⟨none, []⟩ = none := rfl
  have hmq : mark_queued ⟨none, []⟩ false = .marked ⟨some ⟨"QUEUED", none, 0⟩, []⟩ := by
    unfold mark_queued
    rw [if_neg (by simp : ¬false = true), if_neg (by decide)]
  rw [if_neg (by simp : ¬(false = true)), hge, hmq]
  dsimp only
  cases hpc : processCase decode env.transcript mid env.resp env.analytics with
  | error e =>
    rw [case_check_handler_eq_slow_err [] env.year env.month env.transcript
      env.analytics decode env.resp tk mid false e htk hmid (by rfl) hpc]
    rfl
  | ok t =>
    obtain ⟨d, hv, pr⟩ := t
    rw [case_check_handler_eq_slow_ok [] env.year env.month env.transcript
      env.analytics decode env.resp tk mid false d hv pr htk hmid (by rfl) hpc]
    rfl

theorem runPipeline_force (job : JobRecord) (cases : CaseStore)
    (env : PipelineEnv) (decode : String → Except String (List RawElem))
    (mid tk : String) (hmid : ¬mid = "") (htk : ¬tk = "") :
    runPipeline ⟨some job, cases⟩ env decode mid tk true =
      match processCase decode env.transcript mid env.resp env.analytics with
      | .error _ =>
        ({ caseData? := none, passRate? := none, classified := true,
           errored := true },
         ⟨some { job with caseCheckStatus := "QUEUED" }, cases⟩)
      | .ok (d, _, pr) =>
        ({ caseData? := some d, passRate? := some pr, classified := true,
           errored := false },
         ⟨some ⟨"COMPLETED", some ⟨env.year, env.month, mid⟩, pr⟩,
          storePut cases ⟨env.year, env.month, mid⟩ d⟩) := by
  unfold runPipeline
  have hmq : mark_queued ⟨some job, cases⟩ true =
      .marked ⟨some { job with caseCheckStatus := "QUEUED" }, cases⟩ := by
    unfold mark_queued
    rw [if_pos rfl]
  rw [if_pos rfl, hmq]
  dsimp only
  cases hpc : processCase decode env.transcript mid env.resp env.analytics with
  | error e =>
    rw [case_check_handler_eq_slow_err cases env.year env.month env.transcript
      env.analytics decode env.resp tk mid true e htk hmid (by rfl) hpc]
    rfl
  | ok t =>
    obtain ⟨d, hv, pr⟩ := t
    rw [case_check_handler_eq_slow_ok cases env.year env.month env.transcript
      env.analytics decode env.resp tk mid true d hv pr htk hmid (by rfl) hpc]
    rfl

/-- C6: starting from a fresh store, after a successful case-check pipeline
run, a second run for the same meeting identifier without the force flag
returns the previously persisted `CasePayload` unchanged — with its original
pass rate — performs no classification, and leaves the store untouched;
with `forceReprocess = true` the classifier runs again and the newly
computed payload replaces the prior one as the meeting's current case check
(the completion record points at the new key, whose object is the new
payload). -/
theorem pipeline_idempotent_and_force_reprocess
    (env1 env2 : PipelineEnv) (decode : String → Except String (List RawElem))
    (meeting_id transcript_key : String) (d1 : CaseData)
    (hmid : ¬meeting_id = "") (htk : ¬transcript_key = "")
    (h1 : (runPipeline ⟨none, []⟩ env1 decode meeting_id transcript_key
        false).1.caseData? = some d1) :
    ((runPipeline (runPipeline ⟨none, []⟩ env1 decode meeting_id
          transcript_key false).2 env2 decode meeting_id transcript_key
        false).1.caseData? = some d1 ∧
     (runPipeline (runPipeline ⟨none, []⟩ env1 decode meeting_id
          transcript_key false).2 env2 decode meeting_id transcript_key
        false).1.passRate? =
       (runPipeline ⟨none, []⟩ env1 decode meeting_id transcript_key
        false).1.passRate? ∧
     (runPipeline (runPipeline ⟨none, []⟩ env1 decode meeting_id
          transcript_key false).2 env2 decode meeting_id transcript_key
        false).1.classified = false ∧
     (runPipeline (runPipeline ⟨none, []⟩ env1 decode meeting_id
          transcript_key false).2 env2 decode meeting_id transcript_key
        false).2 =
       (runPipeline ⟨none, []⟩ env1 decode meeting_id transcript_key false).2) ∧
    ((runPipeline (runPipeline ⟨none, []⟩ env1 decode meeting_id
          transcript_key false).2 env2 decode meeting_id transcript_key
        true).1.classified = true ∧
     ∀ d2, (runPipeline (runPipeline ⟨none, []⟩ env1 decode meeting_id
          transcript_key false).2 env2 decode meeting_id transcript_key
        true).1.caseData? = some d2 →
       storeLookup (runPipeline (runPipeline ⟨none, []⟩ env1 decode meeting_id
           transcript_key false).2 env2 decode meeting_id transcript_key
         true).2.cases ⟨env2.year, env2.month, meeting_id⟩ = some d2 ∧
       (get_existing_case_check (runPipeline (runPipeline ⟨none, []⟩ env1
           decode meeting_id transcript_key false).2 env2 decode meeting_id
         transcript_key true).2).map (fun x => x.1) =
         some ⟨env2.year, env2.month, meeting_id⟩) := by
  cases hpc1 : processCase decode env1.transcript meeting_id env1.resp
      env1.analytics with
  | error e =>
    rw [runPipeline_fresh env1 decode meeting_id transcript_key hmid htk,
      hpc1] at h1
    simp at h1
  | ok t1 =>
    obtain ⟨d1', hv1, pr1⟩ := t1
    rw [runPipeline_fresh env1 decode meeting_id transcript_key hmid htk,
      hpc1] at h1 ⊢
    dsimp only at h1 ⊢
    have hd : d1' = d1 := by simpa using h1
    subst hd
    constructor
    · rw [runPipeline_completed ⟨env1.year, env1.month, meeting_id⟩ pr1
        [(⟨env1.year, env1.month, meeting_id⟩, d1')] env2 decode meeting_id
        transcript_key]
      exact ⟨by simp [storeLookup], rfl, rfl, rfl⟩
    · rw [runPipeline_force ⟨"COMPLETED",
        some ⟨env1.year, env1.month, meeting_id⟩, pr1⟩
        [(⟨env1.year, env1.month, meeting_id⟩, d1')] env2 decode meeting_id
        transcript_key hmid htk]
      cases hpc2 : processCase decode env2.transcript meeting_id env2.resp
          env2.analytics with
      | error e =>
        dsimp only
        exact ⟨rfl, fun d2 h2 => by simp at h2⟩
      | ok t2 =>
        obtain ⟨d2', hv2, pr2⟩ := t2
        dsimp only
        refine ⟨rfl, ?_⟩
        intro d2 h2
        have hd2 : d2' = d2 := by simpa using h2
        subst hd2
        refine ⟨by simp [storeLookup, storePut], ?_⟩
        rw [get_existing_completed]
        rfl

def c6env1 : PipelineEnv := ⟨2025, 1, wTranscript, [], wResp⟩

def c6env2 : PipelineEnv := ⟨2025, 2, wTranscript, [], wResp⟩

def c6run1 : PipelineResult × Store :=
  runPipeline ⟨none, []⟩ c6env1 wDecode "m1" "tk" false

def c6run2 : PipelineResult × Store :=
  runPipeline c6run1.2 c6env2 wDecode "m1" "tk" false

def c6run2f : PipelineResult × Store :=
  runPipeline c6run1.2 c6env2 wDecode "m1" "tk" true

/-- Witness for C6 at a concrete meeting: the second plain run returns the
first run's payload with its pass rate and does not classify; the forced run
classifies and repoints the completion record at the new key. -/
theorem pipeline_idempotent_and_force_reprocess_witness :
    (¬("m1" : String) = "") ∧ (¬("tk" : String) = "") ∧
    c6run1.1.caseData? = some wData ∧
    ((c6run2.1.caseData? = some wData ∧
      c6run2.1.passRate? = c6run1.1.passRate? ∧
      c6run2.1.classified = false ∧
      c6run2.2 = c6run1.2) ∧
     (c6run2f.1.classified = true ∧
      ∀ d2, c6run2f.1.caseData? = some d2 →
        storeLookup c6run2f.2.cases ⟨c6env2.year, c6env2.month, "m1"⟩ =
          some d2 ∧
        (get_existing_case_check c6run2f.2).map (fun x => x.1) =
          some ⟨c6env2.year, c6env2.month, "m1"⟩)) :=
  ⟨by decide, by decide, by with_unfolding_all decide,
    pipeline_idempotent_and_force_reprocess c6env1 c6env2 wDecode "m1" "tk"
      wData (by decide) (by decide) (by with_unfolding_all decide)⟩
